import Mathlib

/-!
Shallow embedding of the untxt page-processing worker (Python sources under
`worker/`) together with proofs that settle the specification claims.

The embedding follows the source files:
* `worker/db_client.py`    — ledger operations on the `tasks` and `task_pages` tables;
* `worker/qwen_worker.py`  — the per-message processing pipeline `_process_task`,
  `_upload_result`, `_update_page_result`, `_handle_task_failure` and the run loop;
* `worker/redis_client.py` — `get_task_from_queue`;
* `worker/html_reconstructor.py` — the bbox font-sizing rule;
* `worker/anon_processor.py` — `anonymize_value`, `classify_token_type`,
  `generate_tokenized_output`;
* `worker/kvp_processor.py` — `build_alias_map` and the item-normalization step of
  `normalize_extracted_output`.

Python dictionaries are modelled by association lists in which the most recent
binding stands first (`ainsert` prepends, `alookup` takes the first match, so
later writes shadow earlier ones exactly as Python `dict` assignment does).
Python strings are `String` (or `List Char` where character-level reasoning is
needed), machine floats are `ℚ` with explicit truncation, raising is
`Except String`, and external collaborators (the VLM adapter, `json.loads`,
`hashlib.sha256`, Faker, the wall clock, S3 key generation) are explicit
function parameters, matching the specification's treatment of them as opaque
interfaces.
-/

namespace Untxt

/-! ## Association-list helpers (Python `dict` / SQL row lookup) -/

/-- First binding of `k`; with `ainsert` prepending, this is the most recent one. -/
def alookup {κ β : Type} [DecidableEq κ] (l : List (κ × β)) (k : κ) : Option β :=
  (l.find? (fun p => p.1 = k)).map (·.2)

/-- Python `d[k] = v`: the new binding shadows any older one. -/
def ainsert {κ β : Type} (l : List (κ × β)) (k : κ) (v : β) : List (κ × β) :=
  (k, v) :: l

/-- SQL `UPDATE … SET … WHERE key = k`: rewrite every row whose key is `k`. -/
def aupdate {κ β : Type} [DecidableEq κ] (l : List (κ × β)) (k : κ) (f : β → β) :
    List (κ × β) :=
  l.map (fun p => if p.1 = k then (p.1, f p.2) else p)

theorem alookup_nil {κ β : Type} [DecidableEq κ] (k : κ) :
    alookup ([] : List (κ × β)) k = none := rfl

theorem alookup_cons {κ β : Type} [DecidableEq κ] (p : κ × β) (l : List (κ × β)) (k : κ) :
    alookup (p :: l) k = if p.1 = k then some p.2 else alookup l k := by
  by_cases h : p.1 = k <;> simp [alookup, List.find?, h]

theorem alookup_aupdate_eq {κ β : Type} [DecidableEq κ]
    (l : List (κ × β)) (k : κ) (f : β → β) :
    alookup (aupdate l k f) k = (alookup l k).map f := by
  induction l with
  | nil => rfl
  | cons p l ih =>
    simp only [aupdate, List.map_cons] at ih ⊢
    by_cases h : p.1 = k
    · simp [alookup_cons, h]
    · simp only [if_neg h, alookup_cons, h, if_false]
      exact ih

theorem alookup_aupdate_ne {κ β : Type} [DecidableEq κ]
    (l : List (κ × β)) (k k' : κ) (f : β → β) (h : k ≠ k') :
    alookup (aupdate l k f) k' = alookup l k' := by
  induction l with
  | nil => rfl
  | cons p l ih =>
    simp only [aupdate, List.map_cons] at ih ⊢
    by_cases hp : p.1 = k
    · rw [if_pos hp, alookup_cons, alookup_cons]
      have : p.1 ≠ k' := hp ▸ h
      simp only [this, if_false, hp ▸ h, ih]
    · rw [if_neg hp, alookup_cons, alookup_cons]
      by_cases hp' : p.1 = k' <;> simp [hp', ih]

/-! ## Python values (JSON-like documents, processor result dicts) -/

/-- A Python value as handled by the worker: strings, ints, bools, `None`,
lists and dicts (`json`-serializable documents and processor result dicts). -/
inductive PyVal where
  | str (s : String)
  | int (n : Int)
  | bool (b : Bool)
  | null
  | list (xs : List PyVal)
  | dict (kvs : List (String × PyVal))
deriving Repr

/-- Lookup in a dict's binding list (first match; most recent binding first). -/
def dictLookup : List (String × PyVal) → String → Option PyVal
  | [], _ => none
  | (k', v) :: rest, k => if k' = k then some v else dictLookup rest k

/-- Python `d[k]`: raises `KeyError` when the key is absent. -/
def PyVal.getItem : PyVal → String → Except String PyVal
  | .dict kvs, k =>
      match dictLookup kvs k with
      | some v => .ok v
      | none => .error ("KeyError: " ++ k)
  | _, k => .error ("TypeError: value is not subscriptable: " ++ k)

/-- Python `d.get(k)` (default `None` represented as `Option.none`). -/
def PyVal.get : PyVal → String → Option PyVal
  | .dict kvs, k => dictLookup kvs k
  | _, _ => none

/-- Python `k in d`. -/
def PyVal.hasKey (v : PyVal) (k : String) : Bool :=
  (v.get k).isSome

/-- Python truthiness of a value. -/
def PyVal.truthy : PyVal → Bool
  | .str s => s ≠ ""
  | .int n => n ≠ 0
  | .bool b => b
  | .null => false
  | .list xs => ¬ xs.isEmpty
  | .dict kvs => ¬ kvs.isEmpty

/-- Read a string field out of an optional Python value. -/
def PyVal.optStr : Option PyVal → Option String
  | some (.str s) => some s
  | _ => none

/-! ## Ledger rows (`db_client.py`)

`tasks` rows keyed by task id; `task_pages` rows keyed by the composite
`(task_id, page_number, format_type)`, which carries a SQL uniqueness
constraint (`ON CONFLICT (task_id, page_number, format_type)`), so row order in
the association list is irrelevant to lookups. Timestamps are clock ticks
supplied by the caller (`CURRENT_TIMESTAMP` / `datetime.utcnow()`). -/

structure TaskRow where
  status : String
  workerId : Option String := none
  errorMessage : Option String := none
  startedAt : Option Nat := none
  completedAt : Option Nat := none
  s3ResultKey : Option String := none
deriving Repr, DecidableEq

abbrev UnitKey := String × Nat × String

structure PageUnitRow where
  totalPages : Nat := 1
  status : String
  workerId : Option String := none
  resultKey : Option String := none
  processingTimeMs : Option Nat := none
  errorMessage : Option String := none
  pageImageKey : String := ""
  startedAt : Option Nat := none
  completedAt : Option Nat := none
deriving Repr, DecidableEq

/-- `DatabaseClient.update_task_status` (db_client.py lines 69-122): update the
task row's status, setting `started_at`/`worker_id` on `processing`,
`completed_at` on `completed`, and `completed_at`/`error_message` on `failed`. -/
def update_task_status (now : Nat) (tasks : List (String × TaskRow))
    (taskId status : String) (workerId errorMessage : Option String) :
    List (String × TaskRow) :=
  aupdate tasks taskId (fun r =>
    let r := { r with status := status }
    if status = "processing" then
      let r := { r with startedAt := some now }
      match workerId with
      | some w => { r with workerId := some w }
      | none => r
    else if status = "completed" then { r with completedAt := some now }
    else if status = "failed" then
      let r := { r with completedAt := some now }
      match errorMessage with
      | some e => { r with errorMessage := some e }
      | none => r
    else r)

/-- `DatabaseClient.update_task_result_key` (db_client.py lines 124-147):
`UPDATE tasks SET s3_result_key = %s WHERE id = %s`. -/
def update_task_result_key (tasks : List (String × TaskRow))
    (taskId s3ResultKey : String) : List (String × TaskRow) :=
  aupdate tasks taskId (fun r => { r with s3ResultKey := some s3ResultKey })

/-- `DatabaseClient.update_task_page_status` (db_client.py lines 308-381): the
dynamic `SET` clause — always sets `status`; `started_at = COALESCE(started_at,
now)` on `processing`; `completed_at = now` on `completed`/`failed`; and each of
`worker_id`, `result_s3_key`, `processing_time_ms`, `error_message` only when
the corresponding argument is not `None`. -/
def update_task_page_status (now : Nat) (pages : List (UnitKey × PageUnitRow))
    (taskId : String) (pageNumber : Nat) (formatType status : String)
    (workerId : Option String) (resultKey : Option String)
    (processingTimeMs : Option Nat) (errorMessage : Option String) :
    List (UnitKey × PageUnitRow) :=
  aupdate pages (taskId, pageNumber, formatType) (fun r =>
    let r := { r with status := status }
    let r := if status = "processing" then
        { r with startedAt := some (r.startedAt.getD now) } else r
    let r := if status = "completed" ∨ status = "failed" then
        { r with completedAt := some now } else r
    let r := match workerId with
      | some w => { r with workerId := some w }
      | none => r
    let r := match resultKey with
      | some k => { r with resultKey := some k }
      | none => r
    let r := match processingTimeMs with
      | some t => { r with processingTimeMs := some t }
      | none => r
    match errorMessage with
    | some e => { r with errorMessage := some e }
    | none => r)

/-- The keyword parameters `DatabaseClient.update_task_page_status` accepts
(its `def` signature, db_client.py lines 308-318). -/
def update_task_page_status_params : List String :=
  ["task_id", "page_number", "format_type", "status",
   "worker_id", "result_s3_key", "processing_time_ms", "error_message"]

/-- `DatabaseClient.insert_derived_format_page` (db_client.py lines 247-306):
`INSERT … ON CONFLICT (task_id, page_number, format_type) DO UPDATE SET status,
worker_id, result_s3_key, processing_time_ms, completed_at`. The conflict
branch keeps the existing `page_image_s3_key` and `started_at`. -/
def insert_derived_format_page (now : Nat) (pages : List (UnitKey × PageUnitRow))
    (taskId : String) (pageNumber totalPages : Nat) (formatType status : String)
    (workerId : Option String) (resultKey : Option String)
    (processingTimeMs : Option Nat) (pageImageKey : Option String) :
    List (UnitKey × PageUnitRow) :=
  let key : UnitKey := (taskId, pageNumber, formatType)
  match alookup pages key with
  | some _ =>
      aupdate pages key (fun r =>
        { r with status := status, workerId := workerId, resultKey := resultKey,
                 processingTimeMs := processingTimeMs, completedAt := some now })
  | none =>
      (key, { totalPages := totalPages, status := status, workerId := workerId,
              resultKey := resultKey, processingTimeMs := processingTimeMs,
              pageImageKey := pageImageKey.getD "", startedAt := some now,
              completedAt := some now }) :: pages

/-! ## Worker (`qwen_worker.py`)

The worker's external collaborators are parameters: `genKey` models
`S3Client.generate_result_s3_key` plus the timestamped filename (one fresh key
per uploaded `format_type` within a message); the downloaded image, the model
call and the page processor (lines 119-130 together with
`process_*_page`) are summarized by the `procResult` argument — `.ok d` is the
processor's result dict, `.error e` a raised exception. Uploads always reach
the registry when their content is computed (`upload_string` failures would
surface as `.error`, with no registry entry, same as here). Redis task-metadata
writes (transient, 24 h TTL) are not tracked; pub/sub events on `task_updates`
are recorded in `published`. -/

structure QueueMsg where
  taskId : String
  parentTaskId : Option String := none
  userId : String := ""
  pageNumber : Nat := 1
  totalPages : Nat := 1
  formatType : String := "html"
  pageImageKey : String := ""
deriving Repr, DecidableEq

/-- `task_data.get('parent_task_id') or task_data.get('task_id')`
(qwen_worker.py line 96): a falsy (absent or empty) parent id falls back to
the message's own task id. -/
def QueueMsg.effTaskId (m : QueueMsg) : String :=
  match m.parentTaskId with
  | some p => if p = "" then m.taskId else p
  | none => m.taskId

structure WorkerState where
  tasks : List (String × TaskRow)
  pages : List (UnitKey × PageUnitRow)
  uploads : List (String × String × PyVal) := []
  published : List (String × String) := []

/-- Append a `task_updates` publication if `user_id` is truthy
(`publish_task_update` is guarded by `if user_id:` at qwen_worker.py lines
485-491 and 517-524). -/
def publishEvent (userId taskId status : String) (evs : List (String × String)) :
    List (String × String) :=
  if userId = "" then evs else evs ++ [(taskId, status)]

/-- The content-preparation block of `_upload_result` (qwen_worker.py lines
374-422): pick the uploaded document by the result dict's `format_type`; the
final `else` (plain `json`) substitutes the `{error, raw_output, page_number,
message}` diagnostic document when the result carries an `error` key. -/
def upload_content (result : PyVal) (fmt : String) : Except String PyVal :=
  if fmt = "html" then result.getItem "html_output"
  else if fmt = "txt" then result.getItem "text_output"
  else if fmt = "kvp" then result.getItem "html_output"
  else if fmt = "kvp_json" then result.getItem "kvp_output"
  else if fmt = "anon_json" then result.getItem "anon_json"
  else if fmt = "anon_txt" then result.getItem "anon_txt"
  else if fmt = "anon_mapping" then result.getItem "anon_mapping"
  else if fmt = "anon_audit" then result.getItem "anon_audit"
  else
    if result.hasKey "error" then
      match result.getItem "error" with
      | .error e => .error e
      | .ok e => .ok (PyVal.dict
          [("error", e),
           ("raw_output", (result.get "raw").getD (.str "")),
           ("page_number", (result.get "page_number").getD .null),
           ("message", .str "Model generated output but JSON parsing failed")])
    else result.getItem "json_output"

/-- `QwenWorker._upload_result` (qwen_worker.py lines 341-450): read
`page_number` and `format_type` from the result dict, prepare the content,
generate the S3 key and record the upload. Returns the S3 key. -/
def upload_result (genKey : String → String) (st : WorkerState) (result : PyVal) :
    Except String (String × WorkerState) :=
  match result.getItem "page_number" with
  | .error e => .error e
  | .ok _ =>
    match result.getItem "format_type" with
    | .error e => .error e
    | .ok (PyVal.str fmt) =>
      match upload_content result fmt with
      | .error e => .error e
      | .ok content =>
        let key := genKey fmt
        .ok (key, { st with uploads := st.uploads ++ [(key, fmt, content)] })
    | .ok _ => .error "TypeError: format_type is not a string"

/-- The keys of the `update_params` dict the worker builds for the completion
update (qwen_worker.py lines 273-295): the base keys, plus
`json_result_s3_key` for `kvp` (the branch always binds `kvp_json_s3_key`, so
the `in locals()` test holds), plus the anon keys — with `anon_audit_s3_key`
only when an audit artifact was uploaded — and `anon_strategy`,
`anon_generate_audit` for `anon`. -/
def completion_update_param_keys (formatType : String) (hasAuditKey : Bool) :
    List String :=
  ["task_id", "page_number", "format_type", "status", "worker_id",
   "result_s3_key", "processing_time_ms"]
  ++ (if formatType = "kvp" then ["json_result_s3_key"] else [])
  ++ (if formatType = "anon" then
        ["anon_json_s3_key", "anon_txt_s3_key", "anon_mapping_s3_key"]
        ++ (if hasAuditKey then ["anon_audit_s3_key"] else [])
        ++ ["anon_strategy", "anon_generate_audit"]
      else [])

/-- Python keyword-call check: `f(**kwargs)` raises `TypeError` unless every
provided keyword is a parameter of `f`. -/
def kwargs_accepted (accepted provided : List String) : Bool :=
  provided.all (accepted.contains ·)

/-- The per-format branch of `QwenWorker._process_task` (qwen_worker.py lines
122-266): uploads the format's artifacts (raising `KeyError` where the code
subscripts the result dict), inserts the derived `txt` PageUnit for `html`, and
returns `(result_s3_key, anon-audit-uploaded?, state)`. On a raise, the state
reached so far is kept (earlier uploads and DB writes persist). -/
def process_format_branch (now : Nat) (wid : String) (genKey : String → String)
    (msg : QueueMsg) (result : PyVal) (st : WorkerState) :
    WorkerState × Except String (String × Bool) :=
  let pn : PyVal := .int (msg.pageNumber : Int)
  if msg.formatType = "html" then
    match upload_result genKey st result with
    | .error e => (st, .error e)
    | .ok (htmlKey, st1) =>
      if result.hasKey "text_output" then
        let txtResult : PyVal := .dict
          [("text_output", (result.get "text_output").getD .null),
           ("page_number", pn), ("format_type", .str "txt")]
        match upload_result genKey st1 txtResult with
        | .error e => (st1, .error e)
        | .ok (txtKey, st2) =>
          let pages := insert_derived_format_page now st2.pages msg.effTaskId
            msg.pageNumber msg.totalPages "txt" "completed" (some wid)
            (some txtKey) (some 0) none
          ({ st2 with pages := pages }, .ok (htmlKey, false))
      else (st1, .ok (htmlKey, false))
  else if msg.formatType = "json" then
    match upload_result genKey st result with
    | .error e => (st, .error e)
    | .ok (key, st1) => (st1, .ok (key, false))
  else if msg.formatType = "kvp" then
    match result.getItem "kvp_output" with
    | .error e => (st, .error e)
    | .ok kvpOut =>
      match result.getItem "processing_time_ms" with
      | .error e => (st, .error e)
      | .ok ptV =>
        let jsonResult : PyVal := .dict
          [("kvp_output", kvpOut), ("page_number", pn),
           ("format_type", .str "kvp_json"), ("processing_time_ms", ptV)]
        match upload_result genKey st jsonResult with
        | .error e => (st, .error e)
        | .ok (_kvpJsonKey, st1) =>
          match result.getItem "html_output" with
          | .error e => (st1, .error e)
          | .ok htmlOut =>
            let htmlResult : PyVal := .dict
              [("html_output", htmlOut), ("page_number", pn),
               ("format_type", .str "kvp"), ("processing_time_ms", ptV)]
            match upload_result genKey st1 htmlResult with
            | .error e => (st1, .error e)
            | .ok (key, st2) => (st2, .ok (key, false))
  else if msg.formatType = "anon" then
    match result.getItem "anon_json" with
    | .error e => (st, .error e)
    | .ok anonJson =>
      match upload_result genKey st (.dict
          [("anon_json", anonJson), ("page_number", pn),
           ("format_type", .str "anon_json")]) with
      | .error e => (st, .error e)
      | .ok (anonJsonKey, st1) =>
        match result.getItem "anon_txt" with
        | .error e => (st1, .error e)
        | .ok anonTxt =>
          match upload_result genKey st1 (.dict
              [("anon_txt", anonTxt), ("page_number", pn),
               ("format_type", .str "anon_txt")]) with
          | .error e => (st1, .error e)
          | .ok (_anonTxtKey, st2) =>
            match result.getItem "anon_mapping" with
            | .error e => (st2, .error e)
            | .ok anonMapping =>
              match upload_result genKey st2 (.dict
                  [("anon_mapping", anonMapping), ("page_number", pn),
                   ("format_type", .str "anon_mapping")]) with
              | .error e => (st2, .error e)
              | .ok (_anonMappingKey, st3) =>
                let auditV := (result.get "anon_audit").getD .null
                if auditV.truthy then
                  match upload_result genKey st3 (.dict
                      [("anon_audit", auditV), ("page_number", pn),
                       ("format_type", .str "anon_audit")]) with
                  | .error e => (st3, .error e)
                  | .ok (_anonAuditKey, st4) => (st4, .ok (anonJsonKey, true))
                else (st3, .ok (anonJsonKey, false))
  else (st, .error ("ValueError: Unknown format type: " ++ msg.formatType))

/-- `QwenWorker._update_page_result` (qwen_worker.py lines 452-466): update
`tasks.s3_result_key` exactly when the result dict's `format_type` is `html`
or `kvp`; otherwise leave the tasks table untouched. -/
def update_page_result (tasks : List (String × TaskRow)) (taskId resultKey : String)
    (fmtR : Option String) : List (String × TaskRow) :=
  if fmtR = some "html" ∨ fmtR = some "kvp" then
    update_task_result_key tasks taskId resultKey
  else tasks

/-- `QwenWorker._process_task` (qwen_worker.py lines 94-323): mark the unit
`processing` and publish; run the format branch; issue the completion update
through the Python keyword call (raising `TypeError` when `update_params`
carries keywords `update_task_page_status` does not accept); run
`_update_page_result` (primary key update for `html`/`kvp` results); publish
`completed`. On any raise, the `except` branch (lines 310-323) marks the unit
`failed` with the error message and runs `_handle_task_failure` (lines
493-524), which sets the parent task row to `failed` (note: addressed by the
raw `task_data['task_id']`) and publishes `failed`. -/
def mark_processing_state (now : Nat) (wid : String) (msg : QueueMsg)
    (st : WorkerState) : WorkerState :=
  { st with
    pages := update_task_page_status now st.pages msg.effTaskId msg.pageNumber
      msg.formatType "processing" (some wid) none none none,
    published := publishEvent msg.userId msg.effTaskId "processing" st.published }

/-- The `except` branch of `_process_task` (qwen_worker.py lines 310-323)
together with `_handle_task_failure` (lines 493-524): mark the unit `failed`
with the error message, set the parent task row to `failed` (addressed by the
raw `task_data['task_id']`), publish `failed`. -/
def fail_state (now : Nat) (wid : String) (msg : QueueMsg) (e : String)
    (stF : WorkerState) : WorkerState :=
  { stF with
    pages := update_task_page_status now stF.pages msg.effTaskId msg.pageNumber
      msg.formatType "failed" (some wid) none none (some e),
    tasks := update_task_status now stF.tasks msg.taskId "failed"
      (some ("worker-" ++ wid)) (some e),
    published := publishEvent msg.userId msg.taskId "failed" stF.published }

/-- The completion tail of `_process_task` (qwen_worker.py lines 268-308):
mark the unit `completed` with the result key and `processing_time_ms`, run
`_update_page_result`, publish `completed`. -/
def complete_state (now ptMs : Nat) (wid : String) (msg : QueueMsg)
    (resultKey : String) (fmtR : Option String) (st1 : WorkerState) : WorkerState :=
  { st1 with
    pages := update_task_page_status now st1.pages msg.effTaskId msg.pageNumber
      msg.formatType "completed" (some wid) (some resultKey) (some ptMs) none,
    tasks := update_page_result st1.tasks msg.effTaskId resultKey fmtR,
    published := publishEvent msg.userId msg.effTaskId "completed" st1.published }

def process_task (now ptMs : Nat) (wid : String) (genKey : String → String)
    (msg : QueueMsg) (procResult : Except String PyVal) (st : WorkerState) :
    WorkerState :=
  let st0 := mark_processing_state now wid msg st
  match procResult with
  | .error e => fail_state now wid msg e st0
  | .ok result =>
    match process_format_branch now wid genKey msg result st0 with
    | (st1, .error e) => fail_state now wid msg e st1
    | (st1, .ok (resultKey, hasAudit)) =>
      if kwargs_accepted update_task_page_status_params
          (completion_update_param_keys msg.formatType hasAudit) then
        complete_state now ptMs wid msg resultKey
          (PyVal.optStr (result.get "format_type")) st1
      else
        fail_state now wid msg
          "TypeError: update_task_page_status() got an unexpected keyword argument" st1

/-! ## Queue client (`redis_client.py`) and run loop -/

/-- `RedisClient.get_task_from_queue` (redis_client.py lines 89-115): a Redis
error or a timeout yields `None`; a popped payload whose JSON parse fails also
yields `None` (the `JSONDecodeError` handler); otherwise the parsed dict.
`parseJson` models `json.loads`. -/
def get_task_from_queue (parseJson : String → Option PyVal)
    (popResult : Except String (Option String)) : Option PyVal :=
  match popResult with
  | .error _ => none
  | .ok none => none
  | .ok (some payload) => parseJson payload

/-- Redis `BRPOP`: pop the tail of the list, if any. -/
def brpop (q : List String) : Option String × List String :=
  match q.getLast? with
  | some x => (some x, q.dropLast)
  | none => (none, q)

/-- Translate a parsed queue payload into the fields `_process_task` reads
(qwen_worker.py lines 96-99 and 119): `.get` with defaults for page number and
format, `parent_task_id` fallback handled by `QueueMsg.effTaskId`. -/
def msg_of_task_data (d : PyVal) : QueueMsg :=
  { taskId := (PyVal.optStr (d.get "task_id")).getD "",
    parentTaskId := PyVal.optStr (d.get "parent_task_id"),
    userId := (PyVal.optStr (d.get "user_id")).getD "",
    pageNumber := match d.get "page_number" with
      | some (.int n) => n.toNat
      | _ => 1,
    totalPages := match d.get "total_pages" with
      | some (.int n) => n.toNat
      | _ => 1,
    formatType := (PyVal.optStr (d.get "format_type")).getD "html",
    pageImageKey := (PyVal.optStr (d.get "page_image_s3_key")).getD "" }

structure LoopState where
  queue : List String
  ws : WorkerState

/-- One iteration of `QwenWorker.run` (qwen_worker.py lines 73-90): blocking
pop, then either `continue` (no task / dropped payload) or `_process_task`.
`procOf` maps the parsed task data to the outcome of the download+processor
stage. -/
def run_iteration (parseJson : String → Option PyVal)
    (now ptMs : Nat) (wid : String) (genKey : String → String)
    (procOf : PyVal → Except String PyVal) (ls : LoopState) : LoopState :=
  let (popped, q') := brpop ls.queue
  match get_task_from_queue parseJson (.ok popped) with
  | none => { ls with queue := q' }
  | some taskData =>
    { queue := q',
      ws := process_task now ptMs wid genKey (msg_of_task_data taskData)
        (procOf taskData) ls.ws }

/-! ## Worker pipeline lemmas -/

theorem upload_result_ok_state (genKey : String → String) (st : WorkerState) (res : PyVal)
    (k : String) (st' : WorkerState)
    (h : upload_result genKey st res = .ok (k, st')) :
    st'.tasks = st.tasks ∧ st'.pages = st.pages ∧ st'.published = st.published ∧
    ∃ fmt content, st'.uploads = st.uploads ++ [(k, fmt, content)] := by
  unfold upload_result at h
  split at h
  · exact absurd h (by simp)
  · split at h
    · exact absurd h (by simp)
    · split at h
      · exact absurd h (by simp)
      · cases h
        exact ⟨rfl, rfl, rfl, _, _, rfl⟩
    · exact absurd h (by simp)

theorem branch_nonhtml_state (now : Nat) (wid : String) (genKey : String → String)
    (msg : QueueMsg) (res : PyVal) (st : WorkerState)
    (hfmt : msg.formatType ≠ "html") :
    (process_format_branch now wid genKey msg res st).1.tasks = st.tasks ∧
    (process_format_branch now wid genKey msg res st).1.pages = st.pages ∧
    (process_format_branch now wid genKey msg res st).1.published = st.published ∧
    ∃ us, (process_format_branch now wid genKey msg res st).1.uploads = st.uploads ++ us := by
  have triv : True ∧ True ∧ True ∧
      ∃ us, st.uploads = st.uploads ++ us := ⟨trivial, trivial, trivial, [], by simp⟩
  have step : ∀ (s1 s2 : WorkerState),
      (s1.tasks = st.tasks ∧ s1.pages = st.pages ∧ s1.published = st.published ∧
        ∃ us, s1.uploads = st.uploads ++ us) →
      (s2.tasks = s1.tasks ∧ s2.pages = s1.pages ∧ s2.published = s1.published ∧
        ∃ f c k, s2.uploads = s1.uploads ++ [(k, f, c)]) →
      s2.tasks = st.tasks ∧ s2.pages = st.pages ∧ s2.published = st.published ∧
      ∃ us, s2.uploads = st.uploads ++ us := by
    rintro s1 s2 ⟨a1, a2, a3, us, a4⟩ ⟨b1, b2, b3, f, c, k, b4⟩
    exact ⟨b1.trans a1, b2.trans a2, b3.trans a3, _, by rw [b4, a4, List.append_assoc]⟩
  unfold process_format_branch
  rw [if_neg hfmt]
  by_cases hj : msg.formatType = "json"
  · rw [if_pos hj]
    rcases hu : upload_result genKey st res with e | ⟨k, st1⟩
    · simp only [hu]; exact triv
    · simp only [hu]
      obtain ⟨h1, h2, h3, f, c, h4⟩ := upload_result_ok_state _ _ _ _ _ hu
      exact ⟨h1, h2, h3, _, h4⟩
  · rw [if_neg hj]
    by_cases hk : msg.formatType = "kvp"
    · rw [if_pos hk]
      rcases g1 : res.getItem "kvp_output" with e | kvpOut
      · simp only [g1]; exact triv
      · simp only [g1]
        rcases g2 : res.getItem "processing_time_ms" with e | ptV
        · simp only [g2]; exact triv
        · simp only [g2]
          rcases g3 : upload_result genKey st (PyVal.dict
              [("kvp_output", kvpOut), ("page_number", PyVal.int (msg.pageNumber : Int)),
               ("format_type", PyVal.str "kvp_json"), ("processing_time_ms", ptV)])
            with e | ⟨jk, st1⟩
          · simp only [g3]; exact triv
          · simp only [g3]
            obtain ⟨h1, h2, h3, f1, c1, h4⟩ := upload_result_ok_state _ _ _ _ _ g3
            have P1 : st1.tasks = st.tasks ∧ st1.pages = st.pages ∧
                st1.published = st.published ∧ ∃ us, st1.uploads = st.uploads ++ us :=
              ⟨h1, h2, h3, _, h4⟩
            rcases g4 : res.getItem "html_output" with e | htmlOut
            · simp only [g4]; exact P1
            · simp only [g4]
              rcases g5 : upload_result genKey st1 (PyVal.dict
                  [("html_output", htmlOut), ("page_number", PyVal.int (msg.pageNumber : Int)),
                   ("format_type", PyVal.str "kvp"), ("processing_time_ms", ptV)])
                with e | ⟨k2, st2⟩
              · simp only [g5]; exact P1
              · simp only [g5]
                obtain ⟨l1, l2, l3, f2, c2, l4⟩ := upload_result_ok_state _ _ _ _ _ g5
                exact step st1 st2 P1 ⟨l1, l2, l3, _, _, _, l4⟩
    · rw [if_neg hk]
      by_cases ha : msg.formatType = "anon"
      · rw [if_pos ha]
        rcases g1 : res.getItem "anon_json" with e | anonJson
        · simp only [g1]; exact triv
        · simp only [g1]
          rcases g2 : upload_result genKey st (PyVal.dict
              [("anon_json", anonJson), ("page_number", PyVal.int (msg.pageNumber : Int)),
               ("format_type", PyVal.str "anon_json")]) with e | ⟨ak, st1⟩
          · simp only [g2]; exact triv
          · simp only [g2]
            obtain ⟨h1, h2, h3, f1, c1, h4⟩ := upload_result_ok_state _ _ _ _ _ g2
            have P1 : st1.tasks = st.tasks ∧ st1.pages = st.pages ∧
                st1.published = st.published ∧ ∃ us, st1.uploads = st.uploads ++ us :=
              ⟨h1, h2, h3, _, h4⟩
            rcases g3 : res.getItem "anon_txt" with e | anonTxt
            · simp only [g3]; exact P1
            · simp only [g3]
              rcases g4 : upload_result genKey st1 (PyVal.dict
                  [("anon_txt", anonTxt), ("page_number", PyVal.int (msg.pageNumber : Int)),
                   ("format_type", PyVal.str "anon_txt")]) with e | ⟨tk, st2⟩
              · simp only [g4]; exact P1
              · simp only [g4]
                obtain ⟨i1, i2, i3, f2, c2, i4⟩ := upload_result_ok_state _ _ _ _ _ g4
                have P2 := step st1 st2 P1 ⟨i1, i2, i3, _, _, _, i4⟩
                rcases g5 : res.getItem "anon_mapping" with e | anonMapping
                · simp only [g5]; exact P2
                · simp only [g5]
                  rcases g6 : upload_result genKey st2 (PyVal.dict
                      [("anon_mapping", anonMapping),
                       ("page_number", PyVal.int (msg.pageNumber : Int)),
                       ("format_type", PyVal.str "anon_mapping")]) with e | ⟨mk, st3⟩
                  · simp only [g6]; exact P2
                  · simp only [g6]
                    obtain ⟨j1, j2, j3, f3, c3, j4⟩ := upload_result_ok_state _ _ _ _ _ g6
                    have P3 := step st2 st3 P2 ⟨j1, j2, j3, _, _, _, j4⟩
                    by_cases hau : (PyVal.truthy ((res.get "anon_audit").getD PyVal.null)) = true
                    · rw [if_pos hau]
                      rcases g7 : upload_result genKey st3 (PyVal.dict
                          [("anon_audit", (res.get "anon_audit").getD PyVal.null),
                           ("page_number", PyVal.int (msg.pageNumber : Int)),
                           ("format_type", PyVal.str "anon_audit")]) with e | ⟨auk, st4⟩
                      · simp only [g7]; exact P3
                      · simp only [g7]
                        obtain ⟨l1, l2, l3, f4, c4, l4⟩ := upload_result_ok_state _ _ _ _ _ g7
                        exact step st3 st4 P3 ⟨l1, l2, l3, _, _, _, l4⟩
                    · rw [if_neg hau]
                      exact P3
      · rw [if_neg ha]
        exact ⟨rfl, rfl, rfl, [], by simp⟩

theorem kwargs_ok_of_not_kvp_anon (fmt : String) (b : Bool)
    (h1 : fmt ≠ "kvp") (h2 : fmt ≠ "anon") :
    kwargs_accepted update_task_page_status_params
      (completion_update_param_keys fmt b) = true := by
  simp only [completion_update_param_keys, if_neg h1, if_neg h2, List.append_nil]
  decide

theorem kwargs_kvp_false (b : Bool) :
    kwargs_accepted update_task_page_status_params
      (completion_update_param_keys "kvp" b) = false := by
  cases b <;> decide

theorem kwargs_anon_false (b : Bool) :
    kwargs_accepted update_task_page_status_params
      (completion_update_param_keys "anon" b) = false := by
  cases b <;> decide

theorem branch_html_state (now : Nat) (wid : String) (genKey : String → String)
    (msg : QueueMsg) (res : PyVal) (st : WorkerState)
    (hfmt : msg.formatType = "html") :
    (∃ e, process_format_branch now wid genKey msg res st = (st, .error e)) ∨
    (∃ k st1, upload_result genKey st res = .ok (k, st1) ∧
      ((res.hasKey "text_output" = false ∧
         process_format_branch now wid genKey msg res st = (st1, .ok (k, false))) ∨
       (∃ v, res.get "text_output" = some v ∧
         process_format_branch now wid genKey msg res st =
           ({ st1 with
              uploads := st1.uploads ++ [(genKey "txt", "txt", v)],
              pages := insert_derived_format_page now st1.pages msg.effTaskId
                msg.pageNumber msg.totalPages "txt" "completed" (some wid)
                (some (genKey "txt")) (some 0) none }, .ok (k, false))))) := by
  unfold process_format_branch
  rw [if_pos hfmt]
  rcases hu : upload_result genKey st res with e | ⟨k, st1⟩
  · exact .inl ⟨e, by simp [hu]⟩
  · refine .inr ⟨k, st1, rfl, ?_⟩
    by_cases ht : res.hasKey "text_output"
    · rcases hv : res.get "text_output" with _ | v
      · exact absurd (by simp [PyVal.hasKey, hv] : res.hasKey "text_output" = false)
          (by simp [ht])
      · refine .inr ⟨v, rfl, ?_⟩
        simp only [hu, ht, if_true, hv, Option.getD_some]
        have hup2 : upload_result genKey st1 (PyVal.dict
            [("text_output", v), ("page_number", PyVal.int (msg.pageNumber : Int)),
             ("format_type", PyVal.str "txt")]) =
            .ok (genKey "txt", { st1 with
              uploads := st1.uploads ++ [(genKey "txt", "txt", v)] }) := rfl
        rw [hup2]
    · refine .inl ⟨by simpa using ht, ?_⟩
      simp only [hu, ht, if_false]
      simp [Bool.not_eq_true] at ht
      simp [ht]

theorem upload_result_ok_spec (genKey : String → String) (st : WorkerState) (res : PyVal)
    (k : String) (st' : WorkerState)
    (h : upload_result genKey st res = .ok (k, st')) :
    ∃ fmtS content, res.getItem "format_type" = .ok (PyVal.str fmtS) ∧ k = genKey fmtS ∧
      st'.tasks = st.tasks ∧ st'.pages = st.pages ∧ st'.published = st.published ∧
      st'.uploads = st.uploads ++ [(k, fmtS, content)] := by
  unfold upload_result at h
  split at h
  · exact absurd h (by simp)
  · split at h
    · exact absurd h (by simp)
    · rename_i heqf
      split at h
      · exact absurd h (by simp)
      · cases h
        exact ⟨_, _, heqf, rfl, rfl, rfl, rfl, rfl⟩
    · exact absurd h (by simp)

theorem branch_json_ok (now : Nat) (wid : String) (genKey : String → String)
    (msg : QueueMsg) (res : PyVal) (st st1 : WorkerState) (k : String) (ha : Bool)
    (hj : msg.formatType = "json")
    (hb : process_format_branch now wid genKey msg res st = (st1, .ok (k, ha))) :
    upload_result genKey st res = .ok (k, st1) := by
  unfold process_format_branch at hb
  rw [if_neg (by rw [hj]; decide), if_pos hj] at hb
  rcases hu : upload_result genKey st res with e | ⟨k', s'⟩
  · rw [hu] at hb
    exact absurd hb (by simp)
  · rw [hu] at hb
    simp only [Prod.mk.injEq, Except.ok.injEq] at hb
    obtain ⟨hs, hk, hha⟩ := hb
    subst hs
    subst hk
    rfl

theorem branch_unknown_error (now : Nat) (wid : String) (genKey : String → String)
    (msg : QueueMsg) (res : PyVal) (st : WorkerState)
    (h1 : msg.formatType ≠ "html") (h2 : msg.formatType ≠ "json")
    (h3 : msg.formatType ≠ "kvp") (h4 : msg.formatType ≠ "anon") :
    process_format_branch now wid genKey msg res st =
      (st, .error ("ValueError: Unknown format type: " ++ msg.formatType)) := by
  unfold process_format_branch
  rw [if_neg h1, if_neg h2, if_neg h3, if_neg h4]

/-- The pages list after the initial `processing` mark. -/
def procPages (now : Nat) (wid : String) (msg : QueueMsg)
    (pages : List (UnitKey × PageUnitRow)) : List (UnitKey × PageUnitRow) :=
  update_task_page_status now pages msg.effTaskId msg.pageNumber
    msg.formatType "processing" (some wid) none none none

/-- The derived-`txt` upsert the html success path performs. -/
def derivedTxtPages (now : Nat) (wid : String) (genKey : String → String)
    (msg : QueueMsg) (pages : List (UnitKey × PageUnitRow)) :
    List (UnitKey × PageUnitRow) :=
  insert_derived_format_page now pages msg.effTaskId msg.pageNumber
    msg.totalPages "txt" "completed" (some wid) (some (genKey "txt")) (some 0) none

theorem process_task_shape (now ptMs : Nat) (wid : String) (genKey : String → String)
    (msg : QueueMsg) (pr : Except String PyVal) (st : WorkerState)
    (hwf : ∀ d, pr = Except.ok d → msg.formatType = "html" → d.hasKey "text_output" = true) :
    (∃ e st1, st1.tasks = st.tasks ∧
       st1.published = publishEvent msg.userId msg.effTaskId "processing" st.published ∧
       st1.pages = procPages now wid msg st.pages ∧
       (∃ us, st1.uploads = st.uploads ++ us) ∧
       process_task now ptMs wid genKey msg pr st = fail_state now wid msg e st1) ∨
    (∃ result k st1, pr = Except.ok result ∧
       msg.formatType ≠ "kvp" ∧ msg.formatType ≠ "anon" ∧ msg.formatType ≠ "txt" ∧
       st1.tasks = st.tasks ∧
       st1.published = publishEvent msg.userId msg.effTaskId "processing" st.published ∧
       (∃ us, st1.uploads = st.uploads ++ us) ∧
       (∃ fmtS content, result.getItem "format_type" = Except.ok (PyVal.str fmtS) ∧
         k = genKey fmtS ∧ (k, fmtS, content) ∈ st1.uploads) ∧
       ((msg.formatType = "html" ∧
           st1.pages = derivedTxtPages now wid genKey msg (procPages now wid msg st.pages)) ∨
        (msg.formatType ≠ "html" ∧ st1.pages = procPages now wid msg st.pages)) ∧
       process_task now ptMs wid genKey msg pr st =
         complete_state now ptMs wid msg k (PyVal.optStr (result.get "format_type")) st1) := by
  cases pr with
  | error e =>
    exact .inl ⟨e, mark_processing_state now wid msg st, rfl, rfl, rfl,
      ⟨[], (List.append_nil _).symm⟩, rfl⟩
  | ok result =>
    have hwf' := hwf result rfl
    by_cases hh : msg.formatType = "html"
    · rcases branch_html_state now wid genKey msg result
          (mark_processing_state now wid msg st) hh with ⟨e, heq⟩ | ⟨k, st1, hu, hcase⟩
      · refine .inl ⟨e, mark_processing_state now wid msg st, rfl, rfl, rfl,
          ⟨[], (List.append_nil _).symm⟩, ?_⟩
        simp only [process_task, heq]
      · obtain ⟨fmtS, content, hfmt, hkey, ht1, hp1, hpub1, hup1⟩ :=
          upload_result_ok_spec _ _ _ _ _ hu
        rcases hcase with ⟨htf, heq⟩ | ⟨v, hv, heq⟩
        · rw [hwf' hh] at htf
          exact absurd htf (by simp)
        · have hkw : kwargs_accepted update_task_page_status_params
              (completion_update_param_keys msg.formatType false) = true := by
            rw [hh]
            exact kwargs_ok_of_not_kvp_anon "html" false (by decide) (by decide)
          refine .inr ⟨result, k,
            { tasks := st1.tasks,
              pages := insert_derived_format_page now st1.pages msg.effTaskId
                msg.pageNumber msg.totalPages "txt" "completed" (some wid)
                (some (genKey "txt")) (some 0) none,
              uploads := st1.uploads ++ [(genKey "txt", "txt", v)],
              published := st1.published },
            rfl, by rw [hh]; decide, by rw [hh]; decide, by rw [hh]; decide,
            ht1, hpub1, ?_, ?_, ?_, ?_⟩
          · exact ⟨[(k, fmtS, content), (genKey "txt", "txt", v)],
              by rw [hup1]; simp [mark_processing_state]⟩
          · exact ⟨fmtS, content, hfmt, hkey, by rw [hup1]; simp⟩
          · exact .inl ⟨hh, by rw [hp1]; rfl⟩
          · simp only [process_task, heq]
            rw [if_pos hkw]
    · rcases hb : process_format_branch now wid genKey msg result
          (mark_processing_state now wid msg st) with ⟨st1, out⟩
      have hfields := branch_nonhtml_state now wid genKey msg result
        (mark_processing_state now wid msg st) hh
      rw [hb] at hfields
      obtain ⟨ht1, hp1, hpub1, us, hup1⟩ := hfields
      cases out with
      | error e =>
        refine .inl ⟨e, st1, ht1, hpub1, hp1, ⟨us, hup1⟩, ?_⟩
        simp only [process_task, hb]
      | ok p =>
        rcases p with ⟨k, ha⟩
        by_cases hkv : msg.formatType = "kvp"
        · refine .inl ⟨"TypeError: update_task_page_status() got an unexpected keyword argument",
            st1, ht1, hpub1, hp1, ⟨us, hup1⟩, ?_⟩
          simp only [process_task, hb]
          rw [if_neg (by rw [hkv]; simp [kwargs_kvp_false])]
        · by_cases han : msg.formatType = "anon"
          · refine .inl ⟨"TypeError: update_task_page_status() got an unexpected keyword argument",
              st1, ht1, hpub1, hp1, ⟨us, hup1⟩, ?_⟩
            simp only [process_task, hb]
            rw [if_neg (by rw [han]; simp [kwargs_anon_false])]
          · by_cases hj : msg.formatType = "json"
            · have hu := branch_json_ok now wid genKey msg result
                (mark_processing_state now wid msg st) st1 k ha hj hb
              obtain ⟨fmtS, content, hfmt, hkey, ht1x, hp1x, hpub1x, hup1x⟩ :=
                upload_result_ok_spec _ _ _ _ _ hu
              refine .inr ⟨result, k, st1, rfl, hkv, han, by rw [hj]; decide,
                ht1x, hpub1x, ⟨_, hup1x⟩,
                ⟨fmtS, content, hfmt, hkey, by rw [hup1x]; simp⟩,
                .inr ⟨hh, hp1x⟩, ?_⟩
              simp only [process_task, hb]
              rw [if_pos (kwargs_ok_of_not_kvp_anon _ _ hkv han)]
            · have hberr := branch_unknown_error now wid genKey msg result
                (mark_processing_state now wid msg st) hh hj hkv han
              rw [hberr] at hb
              simp only [Prod.mk.injEq] at hb
              exact absurd hb.2 (by simp)

/-! ## Bbox font sizing (`html_reconstructor.py`) -/

/-- Python `int()` on a number: truncation toward zero. -/
def pyTrunc (q : ℚ) : Int :=
  if q < 0 then -(Int.floor (-q)) else Int.floor q

/-- `char_width = width_px / text_len` (html_reconstructor.py line 80). -/
def char_width (widthPx : Int) (textLen : Nat) : ℚ :=
  (widthPx : ℚ) / (textLen : ℚ)

/-- The font-size computation of `reconstruct_html_with_positioning`
(html_reconstructor.py lines 111-115):
`font_size_px = max(8, min(int(char_width * 1.9), 200))`, then
`int(font_size_px * 0.7)` when `data-font` is `hand`. -/
def font_size_px (charWidth : ℚ) (fontType : String) : Int :=
  let base : Int := max 8 (min (pyTrunc (charWidth * (19 / 10))) 200)
  if fontType = "hand" then pyTrunc ((base : ℚ) * (7 / 10)) else base

/-- Modelled from the spec wording of the claim: font size
`clamp(round(cw × 1.9), 8, 200)`, with the 0.7 multiplier applied for
`data-font="hand"`. Used only to compare against `font_size_px`. -/
def spec_font_size_px (charWidth : ℚ) (fontType : String) : Int :=
  let px : Int := max 8 (min (round (charWidth * (19 / 10))) 200)
  if fontType = "hand" then round ((px : ℚ) * (7 / 10)) else px

theorem pyTrunc_eq_floor {q : ℚ} (h : 0 ≤ q) : pyTrunc q = Int.floor q := by
  simp [pyTrunc, not_lt.mpr h]

theorem pyTrunc_mono {q r : ℚ} (hq : 0 ≤ q) (hqr : q ≤ r) :
    pyTrunc q ≤ pyTrunc r := by
  rw [pyTrunc_eq_floor hq, pyTrunc_eq_floor (hq.trans hqr)]
  exact Int.floor_le_floor hqr

/-! ## Anonymization audit records (`anon_processor.py`) -/

/-- The `audit_info` dict built by `anonymize_value` (anon_processor.py lines
128-134 and 147). -/
structure AuditInfo where
  key : String
  originalHash : String
  originalLength : Nat
  strategyApplied : String
  timestamp : String
  anonymizedLength : Nat
deriving Repr, DecidableEq

/-- The string-valued fields of an audit record (its other fields are the two
lengths, which are integers). -/
def AuditInfo.stringFields (a : AuditInfo) : List String :=
  [a.key, a.originalHash, a.strategyApplied, a.timestamp]

/-- `anonymize_redact` (anon_processor.py lines 152-154). -/
def anonymize_redact (value : String) (_key : String) : String :=
  "[REDACTED:" ++ toString value.length ++ "chars]"

/-- `anonymize_value` (anon_processor.py lines 111-149). `sha256hex` models
`hashlib.sha256(...).hexdigest()`, `now` models `datetime.now().isoformat()`;
the `synthetic` (Faker-backed), `generalize` and `mask` generators are passed
as functions of `(value, key)`. Empty values short-circuit with no audit
record; otherwise the record carries the 16-hex-prefix of the original's hash,
the lengths, the strategy and the timestamp. -/
def anonymize_value (sha256hex : String → String) (now : String)
    (syntheticGen generalizeGen maskGen : String → String → String)
    (value key strategy : String) : String × Option AuditInfo :=
  if value = "" then (value, none)
  else
    let originalHash := (sha256hex value).take 16
    let anonymized :=
      if strategy = "redact" then anonymize_redact value key
      else if strategy = "synthetic" then syntheticGen value key
      else if strategy = "generalize" then generalizeGen value key
      else if strategy = "mask" then maskGen value key
      else "[REDACTED:" ++ toString value.length ++ "chars]"
    (anonymized,
     some { key := key, originalHash := originalHash,
            originalLength := value.length, strategyApplied := strategy,
            timestamp := now, anonymizedLength := anonymized.length })

/-! ## Tokenized output (`anon_processor.py` lines 485-593)

Strings are `List Char` here, because the round-trip argument is
character-level. `pyLowerStripChars` is Python's `key.lower().strip()`,
`hasInfix` is Python's substring test `needle in hay`. -/

/-- Python substring test `needle in hay`. -/
def hasInfix (needle : List Char) : List Char → Bool
  | [] => needle.isEmpty
  | c :: t => needle.isPrefixOf (c :: t) || hasInfix needle t

/-- `key.lower().strip()` on character lists. -/
def pyLowerStripChars (key : List Char) : List Char :=
  let l := key.map Char.toLower
  ((l.dropWhile Char.isWhitespace).reverse.dropWhile Char.isWhitespace).reverse

/-- The ordered classification table of `classify_token_type`
(anon_processor.py lines 485-551): the chain of `if any(k in key_lower for k
in [...])` tests, first match wins. -/
def token_rules : List (List String × String) :=
  [(["first name", "given name", "vorname"], "FNAME"),
   (["last name", "surname", "nachname"], "LNAME"),
   (["name", "patient", "customer", "client"], "NAME"),
   (["birth", "dob", "geburtsdatum"], "DOB"),
   (["date", "datum"], "DATE"),
   (["email", "e-mail"], "EMAIL"),
   (["phone", "mobile", "tel", "fax"], "PHONE"),
   (["address", "street", "adresse"], "ADDR"),
   (["city", "stadt"], "CITY"),
   (["zip", "postal", "plz"], "ZIP"),
   (["state", "province"], "STATE"),
   (["country", "land"], "COUNTRY"),
   (["ssn", "social security"], "SSN"),
   (["tax", "ein", "tin"], "TAXID"),
   (["account", "acct", "iban"], "ACCT"),
   (["invoice", "rechnung"], "INVNUM"),
   (["order", "bestellung"], "ORDNUM"),
   (["policy", "member", "insurance"], "POLICYID"),
   (["patient", "mrn", "medical"], "MRNID"),
   (["amount", "total", "price", "betrag", "tax", "vat"], "AMOUNT"),
   (["company", "organization", "firma"], "ORG"),
   (["description", "item"], "DESC")]

/-- `classify_token_type` (anon_processor.py lines 485-551): first matching
rule's kind, default `DATA`. -/
def classify_token_type (key : List Char) : List Char :=
  let kl := pyLowerStripChars key
  match token_rules.find? (fun r => r.1.any (fun s => hasInfix s.data kl)) with
  | some r => r.2.data
  | none => "DATA".data

/-- Decimal digits, most significant first, with structural fuel (the fuel
`n + 1` always suffices, see `natDigitsCore_spec`). -/
def natDigitsCore : Nat → Nat → List Char
  | 0, _ => []
  | fuel + 1, n =>
    if n < 10 then [Nat.digitChar n]
    else natDigitsCore fuel (n / 10) ++ [Nat.digitChar (n % 10)]

/-- Decimal digits of `n`, most significant first (Python `str(n)` for a
non-negative int). -/
def natDigits (n : Nat) : List Char :=
  natDigitsCore (n + 1) n

/-- Python `f"{n:03d}"`: decimal digits left-padded with zeros to width 3. -/
def pad3 (n : Nat) : List Char :=
  let d := natDigits n
  List.replicate (3 - d.length) '0' ++ d

/-- `f"[{token_type}_{counter:03d}]"` (anon_processor.py line 581). -/
def mkToken (tt : List Char) (c : Nat) : List Char :=
  '[' :: tt ++ '_' :: pad3 c ++ [']']

/-- One `{key, original, anonymized}` entry of the mapping list built by
`anonymize_extracted_data`. -/
structure MapEntry where
  key : List Char
  original : List Char
  anonymized : List Char
deriving Repr, DecidableEq

/-- One value of the `token_map` dict: `{key, original, type}`
(anon_processor.py lines 584-588). -/
structure TokEntry where
  key : List Char
  original : List Char
  tokType : List Char
deriving Repr, DecidableEq

/-- The loop of `generate_tokenized_output` (anon_processor.py lines 554-593),
with the running `token_counters` dict as an accumulator. Produces the
`redacted_lines` and the `token_map` in entry order. -/
def generate_tokenized_aux (counters : List (List Char × Nat)) :
    List MapEntry → List (List Char) × List (List Char × TokEntry)
  | [] => ([], [])
  | e :: rest =>
    let tt := classify_token_type e.key
    let c := (alookup counters tt).getD 0 + 1
    let token := mkToken tt c
    let (lines, tmap) := generate_tokenized_aux (ainsert counters tt c) rest
    ((e.key ++ (": ").data ++ token) :: lines,
     (token, ⟨e.key, e.original, tt⟩) :: tmap)

/-- `generate_tokenized_output` (anon_processor.py lines 554-593). -/
def generate_tokenized_output (m : List MapEntry) :
    List (List Char) × List (List Char × TokEntry) :=
  generate_tokenized_aux [] m

/-- The number of entries of `m` whose key classifies to kind `tt`
(the value a per-kind running counter reaches after `m`). -/
def kindCount (m : List MapEntry) (tt : List Char) : Nat :=
  m.countP (fun e => classify_token_type e.key = tt)

/-- Replace every occurrence of `tok` (scanning left to right) by `rep`. -/
def substToken (tok rep : List Char) : List Char → List Char
  | [] => []
  | c :: rest =>
    if tok.isPrefixOf (c :: rest) ∧ tok ≠ [] then
      rep ++ substToken tok rep (rest.drop (tok.length - 1))
    else c :: substToken tok rep rest
termination_by l => l.length
decreasing_by
  · simp only [List.length_cons, List.length_drop]
    omega
  · simp

/-- Modelled from the spec: `detokenize(anon_txt, mapping)` — the repository
has no detokenizer, so this follows the specification's words, substituting
each token of the mapping by its mapped original value throughout the
tokenized text. -/
def detokenize (lines : List (List Char)) (tmap : List (List Char × TokEntry)) :
    List (List Char) :=
  lines.map (fun l => tmap.foldl (fun acc p => substToken p.1 p.2.original acc) l)

/-! ## KVP alias normalization (`kvp_processor.py`) -/

/-- `key.lower().strip()` on `String`. -/
def pyLowerStrip (s : String) : String :=
  ⟨pyLowerStripChars s.data⟩

/-- One entry of `master_kvps['keys']` as flattened by `load_master_kvps`
(kvp_processor.py lines 104-115): canonical key, aliases, category (the loader
always sets `'other'`), sector and sector name. -/
structure KvpKeyDef where
  key : String
  aliases : List String
  category : String := "other"
  sector : Option String := none
  sectorName : Option String := none
  required : Bool := false
deriving Repr, DecidableEq

/-- A `standard_to_info` value (kvp_processor.py lines 159-163). -/
structure KeyInfo where
  category : String
  sector : Option String
  sectorName : Option String
deriving Repr, DecidableEq

/-- The inner alias loop of `build_alias_map` (kvp_processor.py lines 166-167):
`for alias in [std_key] + aliases: alias_to_standard[alias.lower().strip()] =
std_key`. -/
def insert_aliases (aliasMap : List (String × String)) (stdKey : String) :
    List String → List (String × String)
  | [] => aliasMap
  | a :: rest => insert_aliases (ainsert aliasMap (pyLowerStrip a) stdKey) stdKey rest

/-- `build_alias_map` (kvp_processor.py lines 138-169): fold over the master
key defs, building `alias_to_standard` and `standard_to_info`. -/
def build_alias_map (keys : List KvpKeyDef) :
    List (String × String) × List (String × KeyInfo) :=
  keys.foldl
    (fun maps d =>
      (insert_aliases maps.1 d.key (d.key :: d.aliases),
       ainsert maps.2 d.key ⟨d.category, d.sector, d.sectorName⟩))
    ([], [])

/-- An extracted `items[]` element (`{key, value, confidence, uncertain?}`);
a `null` value is modelled as the empty string. -/
structure ExtractedItem where
  key : String
  value : String := ""
  confidence : String := "medium"
  uncertain : Bool := false
deriving Repr, DecidableEq

/-- The normalized item record (kvp_processor.py lines 239-251), together with
the category bucket of `normalized['fields']` it is appended to. -/
structure NormalizedItem where
  visibleKey : String
  standardizedKey : Option String
  value : String
  confidence : String
  uncertain : Bool
  required : Bool
  found : Bool
  sector : Option String
  sectorName : Option String
  category : String
deriving Repr, DecidableEq

/-- The per-item normalization step of `normalize_extracted_output`
(kvp_processor.py lines 219-251): look up `key.lower().strip()` in the alias
map; on a hit take category/sector from `standard_to_info`, otherwise the
empty info dict defaults category to `'other'` and leaves the standardized key
`None`. -/
def normalize_item (aliasMap : List (String × String))
    (stdInfo : List (String × KeyInfo)) (requiredKeys : List String)
    (item : ExtractedItem) : NormalizedItem :=
  let lookupKey := pyLowerStrip item.key
  let stdKey := alookup aliasMap lookupKey
  let keyInfo : Option KeyInfo :=
    match stdKey with
    | some s => alookup stdInfo s
    | none => none
  { visibleKey := item.key,
    standardizedKey := stdKey,
    value := item.value,
    confidence := item.confidence,
    uncertain := item.uncertain,
    required := match stdKey with
      | some s => requiredKeys.contains s
      | none => false,
    found := item.value ≠ "",
    sector := (keyInfo.map (·.sector)).getD none,
    sectorName := (keyInfo.map (·.sectorName)).getD none,
    category := (keyInfo.map (·.category)).getD "other" }

/-! ## Ledger lemmas, the P4 invariant and the html completion equation -/


theorem insert_derived_lookup_self (now : Nat) (pages : List (UnitKey × PageUnitRow))
    (t : String) (p tp : Nat) (ft stt : String) (w : Option String)
    (rk : Option String) (ptm : Option Nat) (pik : Option String) :
    ∃ r', alookup (insert_derived_format_page now pages t p tp ft stt w rk ptm pik)
        (t, p, ft) = some r' ∧
      r'.status = stt ∧ r'.resultKey = rk ∧ r'.workerId = w ∧
      r'.processingTimeMs = ptm ∧ r'.completedAt = some now := by
  rcases h : alookup pages (t, p, ft) with _ | r
  · simp only [insert_derived_format_page, h]
    rw [alookup_cons, if_pos rfl]
    exact ⟨_, rfl, rfl, rfl, rfl, rfl, rfl⟩
  · simp only [insert_derived_format_page, h]
    rw [alookup_aupdate_eq, h]
    exact ⟨_, rfl, rfl, rfl, rfl, rfl, rfl⟩

theorem insert_derived_lookup_ne (now : Nat) (pages : List (UnitKey × PageUnitRow))
    (t : String) (p tp : Nat) (ft stt : String) (w : Option String)
    (rk : Option String) (ptm : Option Nat) (pik : Option String)
    (k : UnitKey) (hk : k ≠ (t, p, ft)) :
    alookup (insert_derived_format_page now pages t p tp ft stt w rk ptm pik) k =
      alookup pages k := by
  rcases h : alookup pages (t, p, ft) with _ | r
  · simp only [insert_derived_format_page, h]
    rw [alookup_cons]
    simp only [if_neg (Ne.symm hk)]
  · simp only [insert_derived_format_page, h]
    exact alookup_aupdate_ne _ _ _ _ (Ne.symm hk)

theorem insert_derived_length (now : Nat) (pages : List (UnitKey × PageUnitRow))
    (t : String) (p tp : Nat) (ft stt : String) (w : Option String)
    (rk : Option String) (ptm : Option Nat) (pik : Option String) :
    (insert_derived_format_page now pages t p tp ft stt w rk ptm pik).length =
      if (alookup pages (t, p, ft)).isSome then pages.length else pages.length + 1 := by
  rcases h : alookup pages (t, p, ft) with _ | r
  · simp only [insert_derived_format_page, h]
    simp
  · simp only [insert_derived_format_page, h]
    simp [aupdate]

theorem aupdate_length {κ β : Type} [DecidableEq κ]
    (l : List (κ × β)) (k : κ) (f : β → β) : (aupdate l k f).length = l.length := by
  simp [aupdate]

/-- Invariant P4: every completed html unit has a completed txt unit for the
same (task, page). -/
def P4Inv (pages : List (UnitKey × PageUnitRow)) : Prop :=
  ∀ t p r, alookup pages (t, p, "html") = some r → r.status = "completed" →
    ∃ r', alookup pages (t, p, "txt") = some r' ∧ r'.status = "completed"

theorem utps_status_self (now : Nat) (pages : List (UnitKey × PageUnitRow))
    (t : String) (p : Nat) (ft stt : String) (w : Option String)
    (rk : Option String) (ptm : Option Nat) (em : Option String) (r : PageUnitRow)
    (h : alookup pages (t, p, ft) = some r) :
    ∃ r', alookup (update_task_page_status now pages t p ft stt w rk ptm em)
        (t, p, ft) = some r' ∧ r'.status = stt := by
  unfold update_task_page_status
  rw [alookup_aupdate_eq, h]
  refine ⟨_, rfl, ?_⟩
  rcases w with _ | w <;> rcases rk with _ | rk <;> rcases ptm with _ | ptm <;>
    rcases em with _ | em <;>
    by_cases h1 : stt = "processing" <;> by_cases h2 : stt = "completed" ∨ stt = "failed" <;>
    simp [h1, h2]

theorem utps_lookup_ne (now : Nat) (pages : List (UnitKey × PageUnitRow))
    (t : String) (p : Nat) (ft stt : String) (w : Option String)
    (rk : Option String) (ptm : Option Nat) (em : Option String)
    (k : UnitKey) (hk : k ≠ (t, p, ft)) :
    alookup (update_task_page_status now pages t p ft stt w rk ptm em) k =
      alookup pages k :=
  alookup_aupdate_ne _ _ _ _ (Ne.symm hk)

theorem p4_preserved_step (now ptMs : Nat) (wid : String) (genKey : String → String)
    (msg : QueueMsg) (pr : Except String PyVal) (st : WorkerState)
    (htxt : msg.formatType ≠ "txt")
    (hwf : ∀ d, pr = Except.ok d → msg.formatType = "html" → d.hasKey "text_output" = true)
    (hInv : P4Inv st.pages) :
    P4Inv (process_task now ptMs wid genKey msg pr st).pages := by
  have hKne : ∀ t p : _, (t, p, "txt") ≠
      (msg.effTaskId, msg.pageNumber, msg.formatType) := by
    intro t p h
    rw [Prod.mk.injEq, Prod.mk.injEq] at h
    exact htxt h.2.2.symm
  rcases process_task_shape now ptMs wid genKey msg pr st hwf with
    ⟨e, st1, _, _, hp1, _, heq⟩ | ⟨result, k, st1, _, _, _, _, _, _, _, _, hpages, heq⟩
  · -- failure path: pages = failed-update at the message key over procPages
    rw [heq]
    intro t p r hr hst
    simp only [fail_state] at hr ⊢
    by_cases hK : (t, p, "html") = (msg.effTaskId, msg.pageNumber, msg.formatType)
    · -- the touched unit: its new status is "failed", contradiction
      rw [hK] at hr
      unfold update_task_page_status at hr
      rw [alookup_aupdate_eq] at hr
      rcases ho : alookup st1.pages (msg.effTaskId, msg.pageNumber, msg.formatType) with
        _ | r0
      · rw [ho] at hr
        exact absurd hr (by simp)
      · rw [ho] at hr
        simp only [Option.map_some', Option.some.injEq] at hr
        rw [← hr] at hst
        exact absurd hst (by simp +decide)
    · rw [utps_lookup_ne _ _ _ _ _ _ _ _ _ _ _ hK] at hr
      rw [hp1] at hr
      unfold procPages at hr
      by_cases hK2 : (t, p, "html") = (msg.effTaskId, msg.pageNumber, msg.formatType)
      · exact absurd hK2 hK
      · rw [utps_lookup_ne _ _ _ _ _ _ _ _ _ _ _ hK2] at hr
        obtain ⟨r', hr', hst'⟩ := hInv t p r hr hst
        refine ⟨r', ?_, hst'⟩
        rw [utps_lookup_ne _ _ _ _ _ _ _ _ _ _ _ (hKne _ _), hp1]
        unfold procPages
        rw [utps_lookup_ne _ _ _ _ _ _ _ _ _ _ _ (hKne _ _)]
        exact hr'
  · -- completion path
    rw [heq]
    intro t p r hr hst
    simp only [complete_state] at hr ⊢
    rcases hpages with ⟨hhtml, hp1⟩ | ⟨hnot, hp1⟩
    · -- html message: pages = completed at K over derivedTxt over procPages
      by_cases hK : (t, p, "html") = (msg.effTaskId, msg.pageNumber, msg.formatType)
      · -- this message's unit: its txt row was upserted completed
        have hTP : t = msg.effTaskId ∧ p = msg.pageNumber := by
          rw [Prod.mk.injEq, Prod.mk.injEq] at hK
          exact ⟨hK.1, hK.2.1⟩
        obtain ⟨ht, hp⟩ := hTP
        subst ht; subst hp
        obtain ⟨r', hr', hst', _⟩ := insert_derived_lookup_self now
          (procPages now wid msg st.pages) msg.effTaskId msg.pageNumber
          msg.totalPages "txt" "completed" (some wid) (some (genKey "txt")) (some 0) none
        refine ⟨r', ?_, hst'⟩
        rw [utps_lookup_ne _ _ _ _ _ _ _ _ _ _ _ (hKne _ _), hp1]
        unfold derivedTxtPages
        exact hr'
      · -- some other (t, p): html row unchanged, old invariant applies
        rw [utps_lookup_ne _ _ _ _ _ _ _ _ _ _ _ hK, hp1] at hr
        unfold derivedTxtPages at hr
        have hne_txtkey : (t, p, "html") ≠ (msg.effTaskId, msg.pageNumber, "txt") := by
          intro h
          rw [Prod.mk.injEq, Prod.mk.injEq] at h
          exact absurd h.2.2 (by decide)
        rw [insert_derived_lookup_ne _ _ _ _ _ _ _ _ _ _ _ _ hne_txtkey] at hr
        unfold procPages at hr
        rw [utps_lookup_ne _ _ _ _ _ _ _ _ _ _ _ hK] at hr
        obtain ⟨r', hr', hst'⟩ := hInv t p r hr hst
        by_cases hTP : t = msg.effTaskId ∧ p = msg.pageNumber
        · -- same (task, page): the derived upsert rewrote the txt row to completed
          obtain ⟨ht, hp⟩ := hTP
          subst ht; subst hp
          obtain ⟨r'', hr'', hst'', _⟩ := insert_derived_lookup_self now
            (procPages now wid msg st.pages) msg.effTaskId msg.pageNumber
            msg.totalPages "txt" "completed" (some wid) (some (genKey "txt")) (some 0) none
          refine ⟨r'', ?_, hst''⟩
          rw [utps_lookup_ne _ _ _ _ _ _ _ _ _ _ _ (hKne _ _), hp1]
          unfold derivedTxtPages
          exact hr''
        · -- different (task, page): txt row unchanged
          refine ⟨r', ?_, hst'⟩
          rw [utps_lookup_ne _ _ _ _ _ _ _ _ _ _ _ (hKne _ _), hp1]
          unfold derivedTxtPages
          have : (t, p, "txt") ≠ (msg.effTaskId, msg.pageNumber, "txt") := by
            intro h
            rw [Prod.mk.injEq, Prod.mk.injEq] at h
            exact hTP ⟨h.1, h.2.1⟩
          rw [insert_derived_lookup_ne _ _ _ _ _ _ _ _ _ _ _ _ this]
          unfold procPages
          rw [utps_lookup_ne _ _ _ _ _ _ _ _ _ _ _ (hKne _ _)]
          exact hr'
    · -- non-html message: html and txt rows unchanged
      have hKh : (t, p, "html") ≠ (msg.effTaskId, msg.pageNumber, msg.formatType) := by
        intro h
        rw [Prod.mk.injEq, Prod.mk.injEq] at h
        exact hnot h.2.2.symm
      rw [utps_lookup_ne _ _ _ _ _ _ _ _ _ _ _ hKh, hp1] at hr
      unfold procPages at hr
      rw [utps_lookup_ne _ _ _ _ _ _ _ _ _ _ _ hKh] at hr
      obtain ⟨r', hr', hst'⟩ := hInv t p r hr hst
      refine ⟨r', ?_, hst'⟩
      rw [utps_lookup_ne _ _ _ _ _ _ _ _ _ _ _ (hKne _ _), hp1]
      unfold procPages
      rw [utps_lookup_ne _ _ _ _ _ _ _ _ _ _ _ (hKne _ _)]
      exact hr'

/-- A run of the worker loop over a batch of messages, each paired with the
outcome of its download+processor stage. -/
def process_all (now ptMs : Nat) (wid : String) (genKey : String → String)
    (msgs : List (QueueMsg × Except String PyVal)) (st : WorkerState) : WorkerState :=
  msgs.foldl (fun s m => process_task now ptMs wid genKey m.1 m.2 s) st

theorem p4_preserved_all (now ptMs : Nat) (wid : String) (genKey : String → String)
    (msgs : List (QueueMsg × Except String PyVal)) (st : WorkerState)
    (hmsgs : ∀ m ∈ msgs, m.1.formatType ≠ "txt" ∧
      (∀ d, m.2 = Except.ok d → m.1.formatType = "html" → d.hasKey "text_output" = true))
    (hInv : P4Inv st.pages) :
    P4Inv (process_all now ptMs wid genKey msgs st).pages := by
  induction msgs generalizing st with
  | nil => exact hInv
  | cons m rest ih =>
    have hm := hmsgs m (List.mem_cons_self m rest)
    exact ih _ (fun m' hm' => hmsgs m' (List.mem_cons_of_mem m hm'))
      (p4_preserved_step now ptMs wid genKey m.1 m.2 st hm.1 hm.2 hInv)

/-- The result dict `process_html_page` returns (page_processor.py lines
207-215); it always carries `text_output`. -/
def html_page_result (htmlOut txtOut lang : String) (dims : PyVal) (pt pn : Int) :
    PyVal :=
  .dict [("html_output", .str htmlOut), ("text_output", .str txtOut),
         ("language", .str lang), ("dimensions", dims),
         ("processing_time_ms", .int pt), ("page_number", .int pn),
         ("format_type", .str "html")]

theorem process_task_html_ok_eq (now ptMs : Nat) (wid : String)
    (genKey : String → String) (msg : QueueMsg)
    (htmlOut txtOut lang : String) (dims : PyVal) (pt pn : Int) (st : WorkerState)
    (hf : msg.formatType = "html") :
    process_task now ptMs wid genKey msg
        (.ok (html_page_result htmlOut txtOut lang dims pt pn)) st =
      complete_state now ptMs wid msg (genKey "html") (some "html")
        { tasks := st.tasks,
          pages := derivedTxtPages now wid genKey msg (procPages now wid msg st.pages),
          uploads := (st.uploads ++ [(genKey "html", "html", .str htmlOut)])
            ++ [(genKey "txt", "txt", .str txtOut)],
          published := publishEvent msg.userId msg.effTaskId "processing" st.published } := by
  obtain ⟨tid, ptid, uid, p, tp, fmt, pik⟩ := msg
  simp only [QueueMsg.formatType] at hf
  subst hf
  rfl

theorem utps_length (now : Nat) (pages : List (UnitKey × PageUnitRow))
    (t : String) (p : Nat) (ft stt : String) (w : Option String)
    (rk : Option String) (ptm : Option Nat) (em : Option String) :
    (update_task_page_status now pages t p ft stt w rk ptm em).length = pages.length := by
  unfold update_task_page_status
  exact aupdate_length _ _ _

theorem utps_lookup_isSome_eq (now : Nat) (pages : List (UnitKey × PageUnitRow))
    (t : String) (p : Nat) (ft stt : String) (w : Option String)
    (rk : Option String) (ptm : Option Nat) (em : Option String) :
    (alookup (update_task_page_status now pages t p ft stt w rk ptm em) (t, p, ft)).isSome =
      (alookup pages (t, p, ft)).isSome := by
  unfold update_task_page_status
  rw [alookup_aupdate_eq]
  cases alookup pages (t, p, ft) <;> rfl

/-! ## Primary-key rules and the P5 / no-kvp-completion invariants -/

theorem getItem_ok_get (v : PyVal) (k : String) (x : PyVal)
    (h : v.getItem k = .ok x) : v.get k = some x := by
  cases v with
  | dict kvs =>
    simp only [PyVal.getItem] at h
    rcases hd : dictLookup kvs k with _ | y
    · rw [hd] at h
      simp at h
    · rw [hd] at h
      injection h with h
      simp [PyVal.get, hd, h]
  | str s => simp [PyVal.getItem] at h
  | int n => simp [PyVal.getItem] at h
  | bool b => simp [PyVal.getItem] at h
  | null => simp [PyVal.getItem] at h
  | list xs => simp [PyVal.getItem] at h

theorem utps_lookup_status (now : Nat) (pages : List (UnitKey × PageUnitRow))
    (t : String) (p : Nat) (ft stt : String) (w : Option String)
    (rk : Option String) (ptm : Option Nat) (em : Option String) (r : PageUnitRow)
    (h : alookup (update_task_page_status now pages t p ft stt w rk ptm em)
        (t, p, ft) = some r) : r.status = stt := by
  unfold update_task_page_status at h
  rw [alookup_aupdate_eq] at h
  rcases hrow : alookup pages (t, p, ft) with _ | r0
  · rw [hrow] at h
    simp at h
  · rw [hrow] at h
    simp only [Option.map_some'] at h
    injection h with h
    rw [← h]
    rcases w with _ | w <;> rcases rk with _ | rk <;> rcases ptm with _ | ptm <;>
      rcases em with _ | em <;>
      by_cases h1 : stt = "processing" <;>
      by_cases h2 : stt = "completed" ∨ stt = "failed" <;> simp [h1, h2]

theorem uts_s3key (now : Nat) (tasks : List (String × TaskRow)) (tid s : String)
    (w e : Option String) (t : String) (row' : TaskRow)
    (h : alookup (update_task_status now tasks tid s w e) t = some row') :
    ∃ row, alookup tasks t = some row ∧ row'.s3ResultKey = row.s3ResultKey := by
  by_cases ht : t = tid
  · subst ht
    unfold update_task_status at h
    rw [alookup_aupdate_eq] at h
    rcases hrow : alookup tasks t with _ | row
    · rw [hrow] at h
      simp at h
    · rw [hrow] at h
      simp only [Option.map_some'] at h
      injection h with h
      refine ⟨row, rfl, ?_⟩
      rw [← h]
      rcases w with _ | w <;> rcases e with _ | e <;>
        by_cases h1 : s = "processing" <;> by_cases h2 : s = "completed" <;>
        by_cases h3 : s = "failed" <;> simp [h1, h2, h3]
  · unfold update_task_status at h
    rw [alookup_aupdate_ne _ _ _ _ (Ne.symm ht)] at h
    exact ⟨row', h, rfl⟩

theorem utrk_lookup_self (tasks : List (String × TaskRow)) (t k : String)
    (row : TaskRow) (h : alookup tasks t = some row) :
    alookup (update_task_result_key tasks t k) t =
      some { row with s3ResultKey := some k } := by
  unfold update_task_result_key
  rw [alookup_aupdate_eq, h]
  rfl

theorem utrk_lookup_eq (tasks : List (String × TaskRow)) (t k : String)
    (row : TaskRow) (h : alookup (update_task_result_key tasks t k) t = some row) :
    row.s3ResultKey = some k := by
  unfold update_task_result_key at h
  rw [alookup_aupdate_eq] at h
  rcases hrow : alookup tasks t with _ | r0
  · rw [hrow] at h
    simp at h
  · rw [hrow] at h
    simp only [Option.map_some'] at h
    injection h with h
    rw [← h]

theorem utrk_lookup_ne (tasks : List (String × TaskRow)) (t k t' : String)
    (h : t' ≠ t) :
    alookup (update_task_result_key tasks t k) t' = alookup tasks t' := by
  unfold update_task_result_key
  exact alookup_aupdate_ne _ _ _ _ (Ne.symm h)

theorem upr_updates (tasks : List (String × TaskRow)) (t k : String)
    (fmtR : Option String) (h : fmtR = some "html" ∨ fmtR = some "kvp") :
    update_page_result tasks t k fmtR = update_task_result_key tasks t k := by
  unfold update_page_result
  rw [if_pos h]

theorem upr_skips (tasks : List (String × TaskRow)) (t k : String)
    (fmtR : Option String) (h1 : fmtR ≠ some "html") (h2 : fmtR ≠ some "kvp") :
    update_page_result tasks t k fmtR = tasks := by
  unfold update_page_result
  rw [if_neg (not_or.mpr ⟨h1, h2⟩)]

/-- Invariant P5 (html priority): whenever some html unit of task `t` is
completed, the task row of `t` (if present) has its primary result key set,
and that key names an uploaded html artifact. -/
def P5Inv (st : WorkerState) : Prop :=
  ∀ t p r, alookup st.pages (t, p, "html") = some r → r.status = "completed" →
    ∀ row, alookup st.tasks t = some row →
      ∃ k content, row.s3ResultKey = some k ∧ (k, "html", content) ∈ st.uploads

/-- No kvp unit is ever in `completed` status. -/
def NKvpInv (pages : List (UnitKey × PageUnitRow)) : Prop :=
  ∀ t p r, alookup pages (t, p, "kvp") = some r → r.status ≠ "completed"

theorem p5_preserved_step (now ptMs : Nat) (wid : String) (genKey : String → String)
    (msg : QueueMsg) (pr : Except String PyVal) (st : WorkerState)
    (hwf : ∀ d, pr = Except.ok d → msg.formatType = "html" → d.hasKey "text_output" = true)
    (hwf2 : ∀ d, pr = Except.ok d → PyVal.optStr (d.get "format_type") = some msg.formatType)
    (hInv : P5Inv st) :
    P5Inv (process_task now ptMs wid genKey msg pr st) := by
  rcases process_task_shape now ptMs wid genKey msg pr st hwf with
    ⟨e, st1, ht1, hpub1, hp1, ⟨us, hup1⟩, heq⟩ |
    ⟨result, k, st1, hpr, hkv, han, htx, ht1, hpub1, ⟨us, hup1⟩,
      ⟨fmtS, content, hfmt, hkeyS, hmem⟩, hpages, heq⟩
  · rw [heq]
    intro t p r hr hst row hrow
    simp only [fail_state] at hr hrow ⊢
    obtain ⟨row0, hrow0, hkeq⟩ := uts_s3key now st1.tasks msg.taskId "failed" _ _ t row hrow
    rw [ht1] at hrow0
    by_cases hK : ((t, p, "html") : UnitKey) = (msg.effTaskId, msg.pageNumber, msg.formatType)
    · rw [hK] at hr
      have hsf := utps_lookup_status now st1.pages msg.effTaskId msg.pageNumber
        msg.formatType "failed" _ _ _ _ r hr
      rw [hsf] at hst
      exact absurd hst (by decide)
    · rw [utps_lookup_ne _ _ _ _ _ _ _ _ _ _ _ hK, hp1] at hr
      unfold procPages at hr
      rw [utps_lookup_ne _ _ _ _ _ _ _ _ _ _ _ hK] at hr
      obtain ⟨k0, c0, hk0, hm0⟩ := hInv t p r hr hst row0 hrow0
      refine ⟨k0, c0, ?_, ?_⟩
      · rw [hkeq, hk0]
      · rw [hup1]
        exact List.mem_append_left us hm0
  · rw [heq]
    intro t p r hr hst row hrow
    simp only [complete_state] at hr hrow ⊢
    have hfmtR : PyVal.optStr (result.get "format_type") = some msg.formatType :=
      hwf2 result hpr
    have hfmtS : fmtS = msg.formatType := by
      have hg := getItem_ok_get result "format_type" _ hfmt
      rw [hg] at hfmtR
      simp only [PyVal.optStr] at hfmtR
      injection hfmtR
    rcases hpages with ⟨hhtml, hp1⟩ | ⟨hnot, hp1⟩
    · have hupd : update_page_result st1.tasks msg.effTaskId k
          (PyVal.optStr (result.get "format_type")) =
          update_task_result_key st1.tasks msg.effTaskId k :=
        upr_updates _ _ _ _ (by rw [hfmtR, hhtml]; left; rfl)
      rw [hupd] at hrow
      rw [hfmtS, hhtml] at hmem
      by_cases ht0 : t = msg.effTaskId
      · subst ht0
        exact ⟨k, content, utrk_lookup_eq st1.tasks msg.effTaskId k row hrow, hmem⟩
      · rw [utrk_lookup_ne _ _ _ _ ht0, ht1] at hrow
        have hK : ((t, p, "html") : UnitKey) ≠
            (msg.effTaskId, msg.pageNumber, msg.formatType) := by
          intro h
          rw [Prod.mk.injEq, Prod.mk.injEq] at h
          exact ht0 h.1
        rw [utps_lookup_ne _ _ _ _ _ _ _ _ _ _ _ hK, hp1] at hr
        unfold derivedTxtPages at hr
        have hKt : ((t, p, "html") : UnitKey) ≠
            (msg.effTaskId, msg.pageNumber, "txt") := by
          intro h
          rw [Prod.mk.injEq, Prod.mk.injEq] at h
          exact absurd h.2.2 (by decide)
        rw [insert_derived_lookup_ne _ _ _ _ _ _ _ _ _ _ _ _ hKt] at hr
        unfold procPages at hr
        rw [utps_lookup_ne _ _ _ _ _ _ _ _ _ _ _ hK] at hr
        obtain ⟨k0, c0, hk0, hm0⟩ := hInv t p r hr hst row hrow
        refine ⟨k0, c0, hk0, ?_⟩
        rw [hup1]
        exact List.mem_append_left us hm0
    · have hskip : update_page_result st1.tasks msg.effTaskId k
          (PyVal.optStr (result.get "format_type")) = st1.tasks :=
        upr_skips _ _ _ _
          (by rw [hfmtR]; intro hcon; injection hcon with hcon; exact hnot hcon)
          (by rw [hfmtR]; intro hcon; injection hcon with hcon; exact hkv hcon)
      rw [hskip, ht1] at hrow
      have hK : ((t, p, "html") : UnitKey) ≠
          (msg.effTaskId, msg.pageNumber, msg.formatType) := by
        intro h
        rw [Prod.mk.injEq, Prod.mk.injEq] at h
        exact hnot h.2.2.symm
      rw [utps_lookup_ne _ _ _ _ _ _ _ _ _ _ _ hK, hp1] at hr
      unfold procPages at hr
      rw [utps_lookup_ne _ _ _ _ _ _ _ _ _ _ _ hK] at hr
      obtain ⟨k0, c0, hk0, hm0⟩ := hInv t p r hr hst row hrow
      refine ⟨k0, c0, hk0, ?_⟩
      rw [hup1]
      exact List.mem_append_left us hm0

theorem nkvp_preserved_step (now ptMs : Nat) (wid : String) (genKey : String → String)
    (msg : QueueMsg) (pr : Except String PyVal) (st : WorkerState)
    (hwf : ∀ d, pr = Except.ok d → msg.formatType = "html" → d.hasKey "text_output" = true)
    (hInv : NKvpInv st.pages) :
    NKvpInv (process_task now ptMs wid genKey msg pr st).pages := by
  rcases process_task_shape now ptMs wid genKey msg pr st hwf with
    ⟨e, st1, ht1, hpub1, hp1, ⟨us, hup1⟩, heq⟩ |
    ⟨result, k, st1, hpr, hkv, han, htx, ht1, hpub1, ⟨us, hup1⟩,
      ⟨fmtS, content, hfmt, hkeyS, hmem⟩, hpages, heq⟩
  · rw [heq]
    intro t p r hr
    simp only [fail_state] at hr
    by_cases hK : ((t, p, "kvp") : UnitKey) = (msg.effTaskId, msg.pageNumber, msg.formatType)
    · rw [hK] at hr
      have hsf := utps_lookup_status now st1.pages msg.effTaskId msg.pageNumber
        msg.formatType "failed" _ _ _ _ r hr
      rw [hsf]
      decide
    · rw [utps_lookup_ne _ _ _ _ _ _ _ _ _ _ _ hK, hp1] at hr
      unfold procPages at hr
      rw [utps_lookup_ne _ _ _ _ _ _ _ _ _ _ _ hK] at hr
      exact hInv t p r hr
  · rw [heq]
    intro t p r hr
    simp only [complete_state] at hr
    have hK : ((t, p, "kvp") : UnitKey) ≠
        (msg.effTaskId, msg.pageNumber, msg.formatType) := by
      intro h
      rw [Prod.mk.injEq, Prod.mk.injEq] at h
      exact hkv h.2.2.symm
    rw [utps_lookup_ne _ _ _ _ _ _ _ _ _ _ _ hK] at hr
    rcases hpages with ⟨hhtml, hp1⟩ | ⟨hnot, hp1⟩
    · rw [hp1] at hr
      unfold derivedTxtPages at hr
      have hKt : ((t, p, "kvp") : UnitKey) ≠
          (msg.effTaskId, msg.pageNumber, "txt") := by
        intro h
        rw [Prod.mk.injEq, Prod.mk.injEq] at h
        exact absurd h.2.2 (by decide)
      rw [insert_derived_lookup_ne _ _ _ _ _ _ _ _ _ _ _ _ hKt] at hr
      unfold procPages at hr
      rw [utps_lookup_ne _ _ _ _ _ _ _ _ _ _ _ hK] at hr
      exact hInv t p r hr
    · rw [hp1] at hr
      unfold procPages at hr
      rw [utps_lookup_ne _ _ _ _ _ _ _ _ _ _ _ hK] at hr
      exact hInv t p r hr

theorem p5_preserved_all (now ptMs : Nat) (wid : String) (genKey : String → String)
    (msgs : List (QueueMsg × Except String PyVal)) (st : WorkerState)
    (hmsgs : ∀ m ∈ msgs,
      (∀ d, m.2 = Except.ok d → m.1.formatType = "html" → d.hasKey "text_output" = true) ∧
      (∀ d, m.2 = Except.ok d → PyVal.optStr (d.get "format_type") = some m.1.formatType))
    (hInv : P5Inv st) :
    P5Inv (process_all now ptMs wid genKey msgs st) := by
  induction msgs generalizing st with
  | nil => exact hInv
  | cons m rest ih =>
    have hm := hmsgs m (List.mem_cons_self m rest)
    exact ih _ (fun m' hm' => hmsgs m' (List.mem_cons_of_mem m hm'))
      (p5_preserved_step now ptMs wid genKey m.1 m.2 st hm.1 hm.2 hInv)

theorem nkvp_preserved_all (now ptMs : Nat) (wid : String) (genKey : String → String)
    (msgs : List (QueueMsg × Except String PyVal)) (st : WorkerState)
    (hmsgs : ∀ m ∈ msgs,
      ∀ d, m.2 = Except.ok d → m.1.formatType = "html" → d.hasKey "text_output" = true)
    (hInv : NKvpInv st.pages) :
    NKvpInv (process_all now ptMs wid genKey msgs st).pages := by
  induction msgs generalizing st with
  | nil => exact hInv
  | cons m rest ih =>
    have hm := hmsgs m (List.mem_cons_self m rest)
    exact ih _ (fun m' hm' => hmsgs m' (List.mem_cons_of_mem m hm'))
      (nkvp_preserved_step now ptMs wid genKey m.1 m.2 st hm hInv)

/-! ## Alias map characterization (`kvp_processor.py`) -/

theorem insert_aliases_lookup (m : List (String × String)) (s : String)
    (as : List String) (x : String) :
    alookup (insert_aliases m s as) x =
      if x ∈ as.map pyLowerStrip then some s else alookup m x := by
  induction as generalizing m with
  | nil => simp [insert_aliases]
  | cons a rest ih =>
    rw [insert_aliases, ih]
    by_cases h1 : x ∈ rest.map pyLowerStrip
    · simp [h1]
    · simp only [if_neg h1, ainsert, alookup_cons]
      by_cases h2 : pyLowerStrip a = x
      · rw [if_pos h2, if_pos ?hc]
        case hc =>
          rw [List.map_cons]
          exact List.mem_cons.mpr (Or.inl h2.symm)
      · have h3 : x ∉ (a :: rest).map pyLowerStrip := by
          rw [List.map_cons]
          intro hc
          rcases List.mem_cons.mp hc with hc1 | hc2
          · exact h2 hc1.symm
          · exact h1 hc2
        rw [if_neg h2, if_neg h3]

/-- The last-writer-wins contents of `alias_to_standard`: later key defs
shadow earlier ones, mirroring the Python dict assignment order. -/
def lookup_alias_spec (keys : List KvpKeyDef) (x : String) : Option String :=
  match keys with
  | [] => none
  | d :: rest =>
    match lookup_alias_spec rest x with
    | some k => some k
    | none =>
      if x ∈ (d.key :: d.aliases).map pyLowerStrip then some d.key else none

theorem fold_alias_lookup (keys : List KvpKeyDef)
    (init : List (String × String) × List (String × KeyInfo)) (x : String) :
    alookup (keys.foldl
      (fun maps d =>
        (insert_aliases maps.1 d.key (d.key :: d.aliases),
         ainsert maps.2 d.key ⟨d.category, d.sector, d.sectorName⟩)) init).1 x =
      match lookup_alias_spec keys x with
      | some k => some k
      | none => alookup init.1 x := by
  induction keys generalizing init with
  | nil => rfl
  | cons d rest ih =>
    rw [List.foldl_cons, ih]
    rcases hs : lookup_alias_spec rest x with _ | k
    · simp only [lookup_alias_spec, hs]
      rw [insert_aliases_lookup]
      by_cases hx : x ∈ (d.key :: d.aliases).map pyLowerStrip
      · rw [if_pos hx, if_pos hx]
      · rw [if_neg hx, if_neg hx]
    · simp only [lookup_alias_spec, hs]

theorem build_alias_lookup (keys : List KvpKeyDef) (x : String) :
    alookup (build_alias_map keys).1 x = lookup_alias_spec keys x := by
  unfold build_alias_map
  rw [fold_alias_lookup]
  rcases hs : lookup_alias_spec keys x with _ | k <;> simp [alookup_nil]

theorem lookup_alias_spec_mem (keys : List KvpKeyDef) (x k : String)
    (h : lookup_alias_spec keys x = some k) :
    ∃ d ∈ keys, x ∈ (d.key :: d.aliases).map pyLowerStrip ∧ d.key = k := by
  induction keys with
  | nil => simp [lookup_alias_spec] at h
  | cons d rest ih =>
    rw [lookup_alias_spec] at h
    rcases hs : lookup_alias_spec rest x with _ | k'
    · rw [hs] at h
      by_cases hx : x ∈ (d.key :: d.aliases).map pyLowerStrip
      · rw [if_pos hx] at h
        injection h with h
        exact ⟨d, List.mem_cons_self d rest, hx, h⟩
      · rw [if_neg hx] at h
        exact absurd h (by simp)
    · rw [hs] at h
      injection h with h
      obtain ⟨d', hd', hx', hk'⟩ := ih (h ▸ hs)
      exact ⟨d', List.mem_cons_of_mem d hd', hx', hk'⟩

theorem lookup_alias_spec_hit (keys : List KvpKeyDef) (d : KvpKeyDef) (x : String)
    (hd : d ∈ keys) (hx : x ∈ (d.key :: d.aliases).map pyLowerStrip)
    (huniq : ∀ d' ∈ keys, x ∈ (d'.key :: d'.aliases).map pyLowerStrip →
      d'.key = d.key) :
    lookup_alias_spec keys x = some d.key := by
  induction keys with
  | nil => exact absurd hd (List.not_mem_nil d)
  | cons d0 rest ih =>
    rw [lookup_alias_spec]
    rcases hs : lookup_alias_spec rest x with _ | k
    · rcases List.mem_cons.mp hd with hEq | hMem
      · subst hEq
        rw [if_pos hx]
      · have := ih hMem (fun d' hd' hx' =>
          huniq d' (List.mem_cons_of_mem d0 hd') hx')
        rw [this] at hs
        exact absurd hs (by simp)
    · obtain ⟨d', hd', hx', hk'⟩ := lookup_alias_spec_mem rest x k hs
      rw [huniq d' (List.mem_cons_of_mem d0 hd') hx'] at hk'
      rw [hk']

theorem lookup_alias_spec_miss (keys : List KvpKeyDef) (x : String)
    (h : ∀ d ∈ keys, x ∉ (d.key :: d.aliases).map pyLowerStrip) :
    lookup_alias_spec keys x = none := by
  induction keys with
  | nil => rfl
  | cons d rest ih =>
    rw [lookup_alias_spec]
    rw [ih (fun d' hd' => h d' (List.mem_cons_of_mem d hd'))]
    rw [if_neg (h d (List.mem_cons_self d rest))]

/-! ## Token digits, token structure and substitution lemmas -/

def parseNat (l : List Char) : Nat :=
  l.foldl (fun a c => a * 10 + (c.toNat - 48)) 0

theorem natDigitsCore_foldl (fuel : Nat) :
    ∀ n acc, n < fuel →
      (natDigitsCore fuel n).foldl (fun a c => a * 10 + (c.toNat - 48)) acc =
        acc * 10 ^ (natDigitsCore fuel n).length + n := by
  induction fuel with
  | zero => intro n acc h; omega
  | succ fuel ih =>
    intro n acc h
    by_cases h10 : n < 10
    · rw [natDigitsCore, if_pos h10]
      have hd : (Nat.digitChar n).toNat - 48 = n := by
        interval_cases n <;> rfl
      simp [List.foldl, hd]
    · rw [natDigitsCore, if_neg h10]
      have hlt : n / 10 < fuel := by omega
      rw [List.foldl_append, ih (n / 10) acc hlt]
      have hd : (Nat.digitChar (n % 10)).toNat - 48 = n % 10 := by
        have hm : n % 10 < 10 := Nat.mod_lt n (by norm_num)
        set m := n % 10 with hmm
        interval_cases m <;> rfl
      have hdm : n / 10 * 10 + n % 10 = n := by
        have := Nat.div_add_mod n 10
        omega
      simp only [List.foldl, hd, List.length_append, List.length_cons,
        List.length_nil]
      calc (acc * 10 ^ (natDigitsCore fuel (n / 10)).length + n / 10) * 10 + n % 10
          = acc * 10 ^ (natDigitsCore fuel (n / 10)).length * 10 +
              (n / 10 * 10 + n % 10) := by ring
        _ = acc * 10 ^ (natDigitsCore fuel (n / 10)).length * 10 + n := by rw [hdm]
        _ = acc * 10 ^ ((natDigitsCore fuel (n / 10)).length + 0 + 1) + n := by
            ring
  
theorem parseNat_natDigits (n : Nat) : parseNat (natDigits n) = n := by
  unfold parseNat natDigits
  rw [natDigitsCore_foldl (n + 1) n 0 (Nat.lt_succ_self n)]
  simp

theorem foldl_replicate_zero (z : Nat) (acc : Nat) :
    (List.replicate z '0').foldl (fun a c => a * 10 + (c.toNat - 48)) acc =
      acc * 10 ^ z := by
  induction z generalizing acc with
  | zero => simp
  | succ z ih =>
    rw [List.replicate_succ, List.foldl_cons, ih]
    have : ('0').toNat - 48 = 0 := rfl
    rw [this]
    ring

theorem parseNat_pad3 (n : Nat) : parseNat (pad3 n) = n := by
  unfold parseNat pad3
  rw [List.foldl_append, foldl_replicate_zero]
  simp only [zero_mul]
  have := natDigitsCore_foldl (n + 1) n 0 (Nat.lt_succ_self n)
  unfold natDigits
  simpa using this

theorem pad3_injective (a b : Nat) (h : pad3 a = pad3 b) : a = b := by
  have := congrArg parseNat h
  rwa [parseNat_pad3, parseNat_pad3] at this

theorem natDigitsCore_digits (fuel : Nat) :
    ∀ n c, c ∈ natDigitsCore fuel n → c.isDigit = true := by
  induction fuel with
  | zero =>
    intro n c h
    simp [natDigitsCore] at h
  | succ fuel ih =>
    intro n c h
    rw [natDigitsCore] at h
    by_cases h10 : n < 10
    · rw [if_pos h10] at h
      simp only [List.mem_singleton] at h
      subst h
      interval_cases n <;> decide
    · rw [if_neg h10] at h
      rcases List.mem_append.mp h with h1 | h2
      · exact ih (n / 10) c h1
      · simp only [List.mem_singleton] at h2
        subst h2
        have hm : n % 10 < 10 := Nat.mod_lt n (by norm_num)
        set m := n % 10 with hmm
        interval_cases m <;> decide

theorem pad3_digits (n : Nat) : ∀ c ∈ pad3 n, c.isDigit = true := by
  intro c h
  unfold pad3 at h
  rcases List.mem_append.mp h with h1 | h2
  · rw [List.eq_of_mem_replicate h1]
    decide
  · exact natDigitsCore_digits (n + 1) n c h2

/-- A usable token kind: none of the token's structural markers occur in it,
and it is nonempty. -/
def kindOk (tt : List Char) : Prop :=
  '[' ∉ tt ∧ '_' ∉ tt ∧ ']' ∉ tt ∧ tt ≠ []

/-- All kinds `classify_token_type` can emit. -/
def kindsList : List (List Char) :=
  token_rules.map (fun r => r.2.data) ++ ["DATA".data]

theorem classify_mem_kinds (key : List Char) :
    classify_token_type key ∈ kindsList := by
  unfold classify_token_type kindsList
  dsimp only
  split
  · next r hf =>
    exact List.mem_append_left _
      (List.mem_map_of_mem (fun r => r.2.data) (List.mem_of_find?_eq_some hf))
  · exact List.mem_append_right _ (List.mem_singleton.mpr rfl)

theorem kinds_ok : ∀ tt ∈ kindsList, kindOk tt := by
  intro tt htt
  fin_cases htt <;> exact ⟨by decide, by decide, by decide, by decide⟩

theorem append_marker_inj (m : Char) :
    ∀ (a1 a2 x y : List Char), m ∉ a1 → m ∉ a2 →
      a1 ++ m :: x = a2 ++ m :: y → a1 = a2 ∧ x = y := by
  intro a1
  induction a1 with
  | nil =>
    intro a2 x y _ h2 h
    cases a2 with
    | nil =>
      rw [List.nil_append, List.nil_append] at h
      injection h with _ h
      exact ⟨rfl, h⟩
    | cons b a2' =>
      rw [List.nil_append, List.cons_append] at h
      injection h with hb _
      exact absurd (hb ▸ List.mem_cons_self b a2') h2
  | cons b a1' ih =>
    intro a2 x y h1 h2 h
    cases a2 with
    | nil =>
      rw [List.cons_append, List.nil_append] at h
      injection h with hb _
      exact absurd (hb ▸ List.mem_cons_self b a1') h1
    | cons b2 a2' =>
      rw [List.cons_append, List.cons_append] at h
      injection h with hb ht
      obtain ⟨he, hxy⟩ := ih a2' x y
        (fun hc => h1 (List.mem_cons_of_mem b hc))
        (fun hc => h2 (List.mem_cons_of_mem b2 hc)) ht
      exact ⟨by rw [hb, he], hxy⟩

theorem mkToken_eq_cons (tt : List Char) (c : Nat) :
    mkToken tt c = '[' :: (tt ++ '_' :: (pad3 c ++ [']'])) := by
  unfold mkToken
  simp

theorem mkToken_inj (tt1 tt2 : List Char) (c1 c2 : Nat)
    (h1 : '_' ∉ tt1) (h2 : '_' ∉ tt2)
    (h : mkToken tt1 c1 = mkToken tt2 c2) : tt1 = tt2 ∧ c1 = c2 := by
  rw [mkToken_eq_cons, mkToken_eq_cons] at h
  injection h with _ h
  obtain ⟨hteq, htl⟩ := append_marker_inj '_' tt1 tt2 _ _ h1 h2 h
  refine ⟨hteq, ?_⟩
  have hpad : pad3 c1 = pad3 c2 := (List.append_inj' htl rfl).1
  exact pad3_injective c1 c2 hpad

theorem mkToken_init_eq (tt : List Char) (c : Nat) :
    mkToken tt c = ('[' :: (tt ++ '_' :: pad3 c)) ++ ']' :: [] := by
  rw [mkToken_eq_cons]
  simp

theorem no_rbracket_init (tt : List Char) (c : Nat) (hk : kindOk tt) :
    ']' ∉ '[' :: (tt ++ '_' :: pad3 c) := by
  intro h
  rcases List.mem_cons.mp h with h0 | h'
  · exact absurd h0 (by decide)
  · rcases List.mem_append.mp h' with h1 | h2
    · exact hk.2.2.1 h1
    · rcases List.mem_cons.mp h2 with h3 | h4
      · exact absurd h3 (by decide)
      · have := pad3_digits c ']' h4
        exact absurd this (by decide)

theorem mkToken_not_prefix (tt1 tt2 : List Char) (c1 c2 : Nat)
    (k1 : kindOk tt1) (k2 : kindOk tt2)
    (hne : mkToken tt1 c1 ≠ mkToken tt2 c2) :
    ¬ (mkToken tt1 c1).isPrefixOf (mkToken tt2 c2) := by
  intro hp
  rw [List.isPrefixOf_iff_prefix] at hp
  obtain ⟨t, ht⟩ := hp
  cases t with
  | nil => exact hne (by rw [← ht, List.append_nil])
  | cons u t' =>
    rw [mkToken_init_eq tt1 c1, mkToken_init_eq tt2 c2] at ht
    rw [List.append_assoc] at ht
    have := append_marker_inj ']' _ _ _ _
      (no_rbracket_init tt1 c1 k1) (no_rbracket_init tt2 c2 k2) ht
    exact absurd this.2.symm (by simp)

theorem substToken_not_bracket (tk rep l : List Char) (hl : '[' ∉ l) :
    substToken ('[' :: tk) rep l = l := by
  induction l with
  | nil => simp [substToken]
  | cons c rest ih =>
    rw [substToken]
    have hc : c ≠ '[' := fun h => hl (h ▸ List.mem_cons_self c rest)
    have hneg : ¬ (('[' :: tk).isPrefixOf (c :: rest) = true ∧ '[' :: tk ≠ []) := by
      intro ⟨hp, _⟩
      rw [List.isPrefixOf_iff_prefix] at hp
      obtain ⟨t, ht⟩ := hp
      rw [List.cons_append] at ht
      injection ht with hb _
      exact hc hb.symm
    rw [if_neg hneg, ih (fun h => hl (List.mem_cons_of_mem c h))]

theorem substToken_at_end (tk rep pre : List Char) (hpre : '[' ∉ pre) :
    substToken ('[' :: tk) rep (pre ++ '[' :: tk) = pre ++ rep := by
  induction pre with
  | nil =>
    rw [List.nil_append, substToken]
    have hpos : (('[' :: tk).isPrefixOf ('[' :: tk) = true ∧ '[' :: tk ≠ []) :=
      ⟨(List.isPrefixOf_iff_prefix).mpr (List.prefix_refl _), by simp⟩
    rw [if_pos hpos]
    have hdrop : tk.drop (('[' :: tk).length - 1) = [] := by simp
    rw [hdrop]
    simp [substToken]
  | cons b pre' ih =>
    rw [List.cons_append, substToken]
    have hb : b ≠ '[' := fun h => hpre (h ▸ List.mem_cons_self b pre')
    have hneg : ¬ (('[' :: tk).isPrefixOf (b :: (pre' ++ '[' :: tk)) = true ∧
        '[' :: tk ≠ []) := by
      intro ⟨hp, _⟩
      rw [List.isPrefixOf_iff_prefix] at hp
      obtain ⟨t, ht⟩ := hp
      rw [List.cons_append] at ht
      injection ht with hb2 _
      exact hb hb2.symm
    rw [if_neg hneg, ih (fun h => hpre (List.mem_cons_of_mem b h))]
    rw [List.cons_append]

theorem substToken_miss (tk tgt rep pre : List Char) (hpre : '[' ∉ pre)
    (htgt : '[' ∉ tgt) (hnp : ¬ ('[' :: tk).isPrefixOf ('[' :: tgt) = true) :
    substToken ('[' :: tk) rep (pre ++ '[' :: tgt) = pre ++ '[' :: tgt := by
  induction pre with
  | nil =>
    rw [List.nil_append, substToken]
    have hneg : ¬ (('[' :: tk).isPrefixOf ('[' :: tgt) = true ∧ '[' :: tk ≠ []) :=
      fun hcon => hnp hcon.1
    rw [if_neg hneg, substToken_not_bracket tk rep tgt htgt]
  | cons b pre' ih =>
    rw [List.cons_append, substToken]
    have hb : b ≠ '[' := fun h => hpre (h ▸ List.mem_cons_self b pre')
    have hneg : ¬ (('[' :: tk).isPrefixOf (b :: (pre' ++ '[' :: tgt)) = true ∧
        '[' :: tk ≠ []) := by
      intro ⟨hp, _⟩
      rw [List.isPrefixOf_iff_prefix] at hp
      obtain ⟨t, ht⟩ := hp
      rw [List.cons_append] at ht
      injection ht with hb2 _
      exact hb hb2.symm
    rw [if_neg hneg, ih (fun h => hpre (List.mem_cons_of_mem b h))]

theorem foldl_subst_noop (tmap : List (List Char × TokEntry)) (l : List Char)
    (htoks : ∀ p ∈ tmap, ∃ tk, p.1 = '[' :: tk) (hl : '[' ∉ l) :
    tmap.foldl (fun acc p => substToken p.1 p.2.original acc) l = l := by
  induction tmap with
  | nil => rfl
  | cons p rest ih =>
    rw [List.foldl_cons]
    obtain ⟨tk, hp⟩ := htoks p (List.mem_cons_self p rest)
    rw [hp, substToken_not_bracket tk p.2.original l hl]
    exact ih (fun q hq => htoks q (List.mem_cons_of_mem p hq))

theorem gta_cons (counters : List (List Char × Nat)) (e : MapEntry)
    (rest : List MapEntry) :
    generate_tokenized_aux counters (e :: rest) =
      ((e.key ++ (": ").data ++ mkToken (classify_token_type e.key)
          ((alookup counters (classify_token_type e.key)).getD 0 + 1)) ::
        (generate_tokenized_aux (ainsert counters (classify_token_type e.key)
          ((alookup counters (classify_token_type e.key)).getD 0 + 1)) rest).1,
       (mkToken (classify_token_type e.key)
          ((alookup counters (classify_token_type e.key)).getD 0 + 1),
        ⟨e.key, e.original, classify_token_type e.key⟩) ::
        (generate_tokenized_aux (ainsert counters (classify_token_type e.key)
          ((alookup counters (classify_token_type e.key)).getD 0 + 1)) rest).2) :=
  rfl

theorem counters_getD_le (counters : List (List Char × Nat)) (tt tt' : List Char)
    (c : Nat) (hc : (alookup counters tt).getD 0 < c) :
    (alookup counters tt').getD 0 ≤ (alookup (ainsert counters tt c) tt').getD 0 := by
  by_cases h : tt = tt'
  · subst h
    rw [ainsert, alookup_cons, if_pos rfl]
    simp only [Option.getD_some]
    omega
  · rw [ainsert, alookup_cons, if_neg h]

theorem gta_tokens (m : List MapEntry) :
    ∀ counters, ∀ p ∈ (generate_tokenized_aux counters m).2,
      p.2.tokType = classify_token_type p.2.key ∧ p.2.tokType ∈ kindsList ∧
      ∃ c, (alookup counters p.2.tokType).getD 0 < c ∧ p.1 = mkToken p.2.tokType c := by
  induction m with
  | nil =>
    intro counters p hp
    simp [generate_tokenized_aux] at hp
  | cons e rest ih =>
    intro counters p hp
    rw [gta_cons] at hp
    rcases List.mem_cons.mp hp with hp0 | hpr
    · subst hp0
      refine ⟨rfl, classify_mem_kinds e.key, ?_⟩
      exact ⟨(alookup counters (classify_token_type e.key)).getD 0 + 1,
        Nat.lt_succ_self _, rfl⟩
    · obtain ⟨h1, h2, c', hc', hp'⟩ := ih _ p hpr
      refine ⟨h1, h2, c', ?_, hp'⟩
      exact lt_of_le_of_lt (counters_getD_le counters (classify_token_type e.key)
        p.2.tokType _ (Nat.lt_succ_self _)) hc'

theorem gta_lines (m : List MapEntry) :
    ∀ counters, (generate_tokenized_aux counters m).1 =
      (generate_tokenized_aux counters m).2.map
        (fun p => p.2.key ++ (": ").data ++ p.1) := by
  induction m with
  | nil => intro counters; rfl
  | cons e rest ih =>
    intro counters
    rw [gta_cons]
    simp only [List.map_cons]
    rw [ih]

theorem gta_entries (m : List MapEntry) :
    ∀ counters, (generate_tokenized_aux counters m).2.map
        (fun p => (p.2.key, p.2.original)) =
      m.map (fun e => (e.key, e.original)) := by
  induction m with
  | nil => intro counters; rfl
  | cons e rest ih =>
    intro counters
    rw [gta_cons]
    simp only [List.map_cons]
    rw [ih]

theorem gta_mem_entry (m : List MapEntry) :
    ∀ counters, ∀ p ∈ (generate_tokenized_aux counters m).2,
      ∃ e ∈ m, p.2.key = e.key ∧ p.2.original = e.original := by
  induction m with
  | nil =>
    intro counters p hp
    simp [generate_tokenized_aux] at hp
  | cons e rest ih =>
    intro counters p hp
    rw [gta_cons] at hp
    rcases List.mem_cons.mp hp with hp0 | hpr
    · subst hp0
      exact ⟨e, List.mem_cons_self e rest, rfl, rfl⟩
    · obtain ⟨e', he', hk, ho⟩ := ih _ p hpr
      exact ⟨e', List.mem_cons_of_mem e he', hk, ho⟩

theorem gta_nodup (m : List MapEntry) :
    ∀ counters, ((generate_tokenized_aux counters m).2.map Prod.fst).Nodup := by
  induction m with
  | nil => intro counters; simp [generate_tokenized_aux]
  | cons e rest ih =>
    intro counters
    rw [gta_cons]
    simp only [List.map_cons]
    refine List.nodup_cons.mpr ⟨?_, ih _⟩
    intro hmem
    obtain ⟨p, hp, hpeq⟩ := List.mem_map.mp hmem
    obtain ⟨h1, h2, c', hc', hp'⟩ := gta_tokens rest _ p hp
    have hkOk : kindOk (classify_token_type e.key) :=
      kinds_ok _ (classify_mem_kinds e.key)
    have hkOk' : kindOk p.2.tokType := kinds_ok _ h2
    have heq : mkToken p.2.tokType c' = mkToken (classify_token_type e.key)
        ((alookup counters (classify_token_type e.key)).getD 0 + 1) := by
      rw [← hp', hpeq]
    obtain ⟨htt, hcc⟩ := mkToken_inj _ _ _ _ hkOk'.2.1 hkOk.2.1 heq
    rw [htt] at hc'
    rw [ainsert, alookup_cons, if_pos rfl] at hc'
    simp only [Option.getD_some] at hc'
    omega

theorem no_lbracket_tail (tt : List Char) (c : Nat) (hk : kindOk tt) :
    '[' ∉ tt ++ '_' :: (pad3 c ++ [']']) := by
  intro h
  rcases List.mem_append.mp h with h1 | h2
  · exact hk.1 h1
  · rcases List.mem_cons.mp h2 with h3 | h4
    · exact absurd h3 (by decide)
    · rcases List.mem_append.mp h4 with h5 | h6
      · exact absurd (pad3_digits c '[' h5) (by decide)
      · exact absurd (List.mem_singleton.mp h6) (by decide)

theorem mkToken_ne (tt tt' : List Char) (c c' : Nat) (hk : kindOk tt)
    (hk' : kindOk tt') (hne : tt = tt' → c ≠ c') :
    mkToken tt c ≠ mkToken tt' c' := by
  intro he
  obtain ⟨h1, h2⟩ := mkToken_inj tt tt' c c' hk.2.1 hk'.2.1 he
  exact hne h1 h2

theorem gta_detok (m : List MapEntry) :
    ∀ counters, (∀ e ∈ m, '[' ∉ e.key ∧ '[' ∉ e.original) →
      detokenize (generate_tokenized_aux counters m).1
          (generate_tokenized_aux counters m).2 =
        m.map (fun e => e.key ++ (": ").data ++ e.original) := by
  induction m with
  | nil => intro counters _; rfl
  | cons e rest ih =>
    intro counters hm
    have hmE := hm e (List.mem_cons_self e rest)
    have hmR : ∀ e' ∈ rest, '[' ∉ e'.key ∧ '[' ∉ e'.original :=
      fun e' he' => hm e' (List.mem_cons_of_mem e he')
    have hkOkE : kindOk (classify_token_type e.key) :=
      kinds_ok _ (classify_mem_kinds e.key)
    have hpreE : '[' ∉ e.key ++ (": ").data := by
      intro h
      rcases List.mem_append.mp h with h1 | h2
      · exact hmE.1 h1
      · revert h2
        decide
    have htoks : ∀ p ∈ (generate_tokenized_aux
        (ainsert counters (classify_token_type e.key)
          ((alookup counters (classify_token_type e.key)).getD 0 + 1)) rest).2,
        ∃ tk, p.1 = '[' :: tk := by
      intro p hp
      obtain ⟨_, _, c', _, hp'⟩ := gta_tokens rest _ p hp
      exact ⟨_, by rw [hp', mkToken_eq_cons]⟩
    rw [gta_cons]
    unfold detokenize
    simp only [List.map_cons]
    congr 1
    · -- the head line round-trips to `key: original`
      rw [List.foldl_cons]
      rw [mkToken_eq_cons]
      rw [substToken_at_end _ _ _ hpreE]
      have hnl : '[' ∉ e.key ++ (": ").data ++ e.original := by
        intro h
        rcases List.mem_append.mp h with h1 | h2
        · exact hpreE h1
        · exact hmE.2 h2
      rw [foldl_subst_noop _ _ htoks hnl]
    · -- the tail lines are untouched by this token, then round-trip by ih
      have hstep : ∀ l ∈ (generate_tokenized_aux
          (ainsert counters (classify_token_type e.key)
            ((alookup counters (classify_token_type e.key)).getD 0 + 1)) rest).1,
          substToken (mkToken (classify_token_type e.key)
            ((alookup counters (classify_token_type e.key)).getD 0 + 1))
            e.original l = l := by
        intro l hl
        rw [gta_lines rest _] at hl
        obtain ⟨p, hp, hleq⟩ := List.mem_map.mp hl
        obtain ⟨htt, hkmem, c', hc', hp'⟩ := gta_tokens rest _ p hp
        obtain ⟨e', he', hkey, _⟩ := gta_mem_entry rest _ p hp
        have hkOk' : kindOk p.2.tokType := kinds_ok _ hkmem
        have hpre' : '[' ∉ p.2.key ++ (": ").data := by
          intro h
          rcases List.mem_append.mp h with h1 | h2
          · exact (hmR e' he').1 (hkey ▸ h1)
          · revert h2
            decide
        have hcounter : (alookup (ainsert counters (classify_token_type e.key)
            ((alookup counters (classify_token_type e.key)).getD 0 + 1))
            (classify_token_type e.key)).getD 0 =
            (alookup counters (classify_token_type e.key)).getD 0 + 1 := by
          rw [ainsert, alookup_cons, if_pos rfl]
          rfl
        have hne : mkToken (classify_token_type e.key)
            ((alookup counters (classify_token_type e.key)).getD 0 + 1) ≠
            mkToken p.2.tokType c' := by
          apply mkToken_ne _ _ _ _ hkOkE hkOk'
          intro hEq hcEq
          rw [← hEq, hcounter] at hc'
          omega
        have hnp : ¬ (mkToken (classify_token_type e.key)
            ((alookup counters (classify_token_type e.key)).getD 0 + 1)).isPrefixOf
            (mkToken p.2.tokType c') = true :=
          mkToken_not_prefix _ _ _ _ hkOkE hkOk' hne
        rw [← hleq, hp']
        simp only [mkToken_eq_cons] at hnp ⊢
        exact substToken_miss _ _ _ _ hpre'
          (no_lbracket_tail p.2.tokType c' hkOk') hnp
      calc (generate_tokenized_aux (ainsert counters (classify_token_type e.key)
            ((alookup counters (classify_token_type e.key)).getD 0 + 1)) rest).1.map
            (fun l => ((mkToken (classify_token_type e.key)
                ((alookup counters (classify_token_type e.key)).getD 0 + 1),
              (⟨e.key, e.original, classify_token_type e.key⟩ : TokEntry)) ::
              (generate_tokenized_aux (ainsert counters (classify_token_type e.key)
                ((alookup counters (classify_token_type e.key)).getD 0 + 1)) rest).2).foldl
              (fun acc p => substToken p.1 p.2.original acc) l)
          = (generate_tokenized_aux (ainsert counters (classify_token_type e.key)
              ((alookup counters (classify_token_type e.key)).getD 0 + 1)) rest).1.map
            (fun l => (generate_tokenized_aux (ainsert counters (classify_token_type e.key)
                ((alookup counters (classify_token_type e.key)).getD 0 + 1)) rest).2.foldl
              (fun acc p => substToken p.1 p.2.original acc) l) := by
            apply List.map_congr_left
            intro l hl
            rw [List.foldl_cons]
            dsimp only
            rw [hstep l hl]
        _ = rest.map (fun e => e.key ++ (": ").data ++ e.original) := ih _ hmR

/-! ## Claim C1 -/

def c1Msg : QueueMsg :=
  { taskId := "T", pageNumber := 1, formatType := "html", userId := "U" }

def c1State : WorkerState :=
  { tasks := [("T", { status := "processing" })],
    pages := [(("T", 1, "html"), { status := "pending" })] }

/-- C1 counterexample: a processing error on the html unit of task `T` makes
the worker set the parent `tasks` row's status to `failed` (via
`_handle_task_failure` → `update_task_status`), refuting the claim that the
parent task row's status is not set to failed by the worker. -/
theorem c1_parent_task_set_failed_counterexample :
    (alookup (process_task 0 0 "1" (fun f => f) c1Msg (.error "boom") c1State).tasks
      "T").map (·.status) = some "failed" ∧
    (alookup (process_task 0 0 "1" (fun f => f) c1Msg (.error "boom") c1State).tasks
      "T").map (·.errorMessage) = some (some "boom") := by
  constructor <;> rfl

/-- C1 (amended): when processing a QueueMessage raises, the worker marks that
(task, page, format) PageUnit `failed` with the error message and touches no
other PageUnit row — but it also sets the parent task row's status to `failed`
with the same error message (qwen_worker.py lines 310-323 and 493-524), so the
error does propagate beyond the unit boundary to the task row. -/
theorem c1_unit_failure_marks_unit_and_parent_task
    (now ptMs : Nat) (wid : String) (genKey : String → String)
    (msg : QueueMsg) (e : String) (st : WorkerState)
    (r : PageUnitRow) (t : TaskRow)
    (hr : alookup st.pages (msg.effTaskId, msg.pageNumber, msg.formatType) = some r)
    (ht : alookup st.tasks msg.taskId = some t) :
    (∃ r', alookup (process_task now ptMs wid genKey msg (.error e) st).pages
        (msg.effTaskId, msg.pageNumber, msg.formatType) = some r' ∧
      r'.status = "failed" ∧ r'.errorMessage = some e) ∧
    (∀ k, k ≠ (msg.effTaskId, msg.pageNumber, msg.formatType) →
      alookup (process_task now ptMs wid genKey msg (.error e) st).pages k =
        alookup st.pages k) ∧
    (∃ t', alookup (process_task now ptMs wid genKey msg (.error e) st).tasks
        msg.taskId = some t' ∧ t'.status = "failed" ∧ t'.errorMessage = some e) := by
  simp only [process_task, fail_state, mark_processing_state]
  refine ⟨?_, ?_, ?_⟩
  · simp only [update_task_page_status, alookup_aupdate_eq, hr, Option.map_map,
      Option.map_some]
    exact ⟨_, rfl, by simp +decide, by simp +decide⟩
  · intro k hk
    simp only [update_task_page_status, alookup_aupdate_ne _ _ _ _ (fun h => hk h.symm)]
  · simp only [update_task_status, alookup_aupdate_eq, ht, Option.map_some]
    exact ⟨_, rfl, by simp +decide, by simp +decide⟩

/-- C1 witness: the amended theorem applied to the concrete failing run. -/
theorem c1_unit_failure_witness :
    alookup c1State.pages ("T", 1, "html") = some { status := "pending" } ∧
    alookup c1State.tasks "T" = some { status := "processing" } ∧
    ((∃ r', alookup (process_task 0 0 "1" (fun f => f) c1Msg (.error "boom") c1State).pages
        ("T", 1, "html") = some r' ∧
      r'.status = "failed" ∧ r'.errorMessage = some "boom") ∧
    (∀ k, k ≠ ("T", 1, "html") →
      alookup (process_task 0 0 "1" (fun f => f) c1Msg (.error "boom") c1State).pages k =
        alookup c1State.pages k) ∧
    (∃ t', alookup (process_task 0 0 "1" (fun f => f) c1Msg (.error "boom") c1State).tasks
        "T" = some t' ∧ t'.status = "failed" ∧ t'.errorMessage = some "boom")) :=
  ⟨by rfl, by rfl,
    c1_unit_failure_marks_unit_and_parent_task 0 0 "1" (fun f => f) c1Msg "boom"
      c1State { status := "pending" } { status := "processing" } (by rfl) (by rfl)⟩

/-! ## Claim C2 -/

def c2KvpMsg : QueueMsg :=
  { taskId := "T", pageNumber := 1, formatType := "kvp", userId := "U" }

def c2AnonMsg : QueueMsg :=
  { taskId := "T", pageNumber := 1, formatType := "anon", userId := "U" }

def c2KvpState : WorkerState :=
  { tasks := [("T", { status := "processing" })],
    pages := [(("T", 1, "kvp"), { status := "pending" })] }

def c2AnonState : WorkerState :=
  { tasks := [("T", { status := "processing" })],
    pages := [(("T", 1, "anon"), { status := "pending" })] }

def c2KvpResult : PyVal := .dict
  [("kvp_output", .dict [("fields", .dict [])]),
   ("html_output", .str "<table></table>"),
   ("processing_time_ms", .int 5),
   ("page_number", .int 1),
   ("format_type", .str "kvp")]

def c2AnonResult : PyVal := .dict
  [("anon_json", .dict [("items", .list [])]),
   ("anon_txt", .str "Name: [NAME_001]"),
   ("anon_mapping", .dict [("tokens", .dict [])]),
   ("processing_time_ms", .int 5),
   ("page_number", .int 1),
   ("format_type", .str "anon")]

/-- C2: evaluation at the failing input. For a kvp (resp. anon) unit whose
page processing and artifact uploads all succeed, the worker's completion call
passes the keyword `json_result_s3_key` (resp. the `anon_*` keywords), which
`DatabaseClient.update_task_page_status` does not accept, so the Python call
raises `TypeError` inside the `try` block and the unit is marked `failed` —
not `completed` with side keys, as the claim states. The uploads did happen
(two kvp artifacts, three anon artifacts). -/
theorem c2_kvp_anon_completion_typeerror :
    kwargs_accepted update_task_page_status_params
      (completion_update_param_keys "kvp" false) = false ∧
    kwargs_accepted update_task_page_status_params
      (completion_update_param_keys "anon" false) = false ∧
    (alookup (process_task 0 5 "1" (fun f => f) c2KvpMsg (.ok c2KvpResult)
        c2KvpState).pages ("T", 1, "kvp")).map (·.status) = some "failed" ∧
    (alookup (process_task 0 5 "1" (fun f => f) c2KvpMsg (.ok c2KvpResult)
        c2KvpState).pages ("T", 1, "kvp")).map (·.errorMessage) =
      some (some "TypeError: update_task_page_status() got an unexpected keyword argument") ∧
    (alookup (process_task 0 5 "1" (fun f => f) c2KvpMsg (.ok c2KvpResult)
        c2KvpState).pages ("T", 1, "kvp")).map (·.resultKey) = some none ∧
    (process_task 0 5 "1" (fun f => f) c2KvpMsg (.ok c2KvpResult)
        c2KvpState).uploads.length = 2 ∧
    (alookup (process_task 0 5 "1" (fun f => f) c2KvpMsg (.ok c2KvpResult)
        c2KvpState).tasks "T").map (·.status) = some "failed" ∧
    (alookup (process_task 0 5 "1" (fun f => f) c2AnonMsg (.ok c2AnonResult)
        c2AnonState).pages ("T", 1, "anon")).map (·.status) = some "failed" ∧
    (process_task 0 5 "1" (fun f => f) c2AnonMsg (.ok c2AnonResult)
        c2AnonState).uploads.length = 3 := by
  refine ⟨by decide, by decide, ?_, ?_, ?_, ?_, ?_, ?_, ?_⟩ <;> rfl

/-! ## Claim C3 -/

/-- The parse-failure dict returned by `process_json_page`, `process_kvp_page`
and `process_anon_page` (page_processor.py lines 296-302, 500-516, 681-697):
`{error, raw, processing_time_ms, page_number, format_type}`. -/
def parse_failure_result (err raw : String) (pt pn : Int) (fmt : String) : PyVal :=
  .dict [("error", .str err), ("raw", .str raw), ("processing_time_ms", .int pt),
         ("page_number", .int pn), ("format_type", .str fmt)]

def c3Msg : QueueMsg :=
  { taskId := "T", pageNumber := 1, formatType := "kvp", userId := "U" }

def c3State : WorkerState :=
  { tasks := [("T", { status := "processing" })],
    pages := [(("T", 1, "kvp"), { status := "pending" })] }

/-- C3 counterexample: a kvp unit whose VLM output fails to parse gets the
parse-failure dict from `process_kvp_page`; the worker's kvp branch then
subscripts `result['kvp_output']`, raising `KeyError`, so the unit is marked
`failed` — not `completed` — and no diagnostic artifact is stored. -/
theorem c3_kvp_parse_failure_counterexample :
    (alookup (process_task 0 3 "1" (fun f => f) c3Msg
        (.ok (parse_failure_result "invalid json" "garbage" 3 1 "kvp"))
        c3State).pages ("T", 1, "kvp")).map (·.status) = some "failed" ∧
    (alookup (process_task 0 3 "1" (fun f => f) c3Msg
        (.ok (parse_failure_result "invalid json" "garbage" 3 1 "kvp"))
        c3State).pages ("T", 1, "kvp")).map (·.errorMessage) =
      some (some "KeyError: kvp_output") ∧
    (process_task 0 3 "1" (fun f => f) c3Msg
        (.ok (parse_failure_result "invalid json" "garbage" 3 1 "kvp"))
        c3State).uploads = [] := by
  refine ⟨?_, ?_, ?_⟩ <;> rfl

/-- C3 (amended): the soft-failure behaviour holds only for format `json`: a
json unit whose result is the parse-failure dict is still marked `completed`
and the stored artifact is the diagnostic document
`{error, raw_output, page_number, message}` (qwen_worker.py lines 409-422).
For `kvp` and `anon`, the same parse-failure dict makes the worker's branch
raise `KeyError` (`result['kvp_output']` / `result['anon_json']`), so the unit
is marked `failed` and no artifact is stored. -/
theorem c3_soft_failure_json_only
    (now ptMs : Nat) (wid : String) (genKey : String → String)
    (msgJ msgK msgA : QueueMsg) (err raw : String) (pt pn : Int)
    (stJ stK stA : WorkerState) (rJ rK rA : PageUnitRow)
    (hfJ : msgJ.formatType = "json") (hfK : msgK.formatType = "kvp")
    (hfA : msgA.formatType = "anon")
    (hrJ : alookup stJ.pages (msgJ.effTaskId, msgJ.pageNumber, "json") = some rJ)
    (hrK : alookup stK.pages (msgK.effTaskId, msgK.pageNumber, "kvp") = some rK)
    (hrA : alookup stA.pages (msgA.effTaskId, msgA.pageNumber, "anon") = some rA) :
    ((alookup (process_task now ptMs wid genKey msgJ
        (.ok (parse_failure_result err raw pt pn "json")) stJ).pages
        (msgJ.effTaskId, msgJ.pageNumber, "json")).map (·.status) = some "completed" ∧
     (process_task now ptMs wid genKey msgJ
        (.ok (parse_failure_result err raw pt pn "json")) stJ).uploads =
       stJ.uploads ++ [(genKey "json", "json", .dict
         [("error", .str err), ("raw_output", .str raw), ("page_number", .int pn),
          ("message", .str "Model generated output but JSON parsing failed")])]) ∧
    ((alookup (process_task now ptMs wid genKey msgK
        (.ok (parse_failure_result err raw pt pn "kvp")) stK).pages
        (msgK.effTaskId, msgK.pageNumber, "kvp")).map (·.status) = some "failed" ∧
     (alookup (process_task now ptMs wid genKey msgK
        (.ok (parse_failure_result err raw pt pn "kvp")) stK).pages
        (msgK.effTaskId, msgK.pageNumber, "kvp")).map (·.errorMessage) =
       some (some "KeyError: kvp_output") ∧
     (process_task now ptMs wid genKey msgK
        (.ok (parse_failure_result err raw pt pn "kvp")) stK).uploads = stK.uploads) ∧
    ((alookup (process_task now ptMs wid genKey msgA
        (.ok (parse_failure_result err raw pt pn "anon")) stA).pages
        (msgA.effTaskId, msgA.pageNumber, "anon")).map (·.status) = some "failed" ∧
     (process_task now ptMs wid genKey msgA
        (.ok (parse_failure_result err raw pt pn "anon")) stA).uploads = stA.uploads) := by
  have keyJ : process_task now ptMs wid genKey msgJ
      (.ok (parse_failure_result err raw pt pn "json")) stJ =
      { tasks := stJ.tasks,
        pages := update_task_page_status now
          (update_task_page_status now stJ.pages msgJ.effTaskId msgJ.pageNumber
            "json" "processing" (some wid) none none none)
          msgJ.effTaskId msgJ.pageNumber "json" "completed" (some wid)
          (some (genKey "json")) (some ptMs) none,
        uploads := stJ.uploads ++ [(genKey "json", "json", .dict
          [("error", .str err), ("raw_output", .str raw), ("page_number", .int pn),
           ("message", .str "Model generated output but JSON parsing failed")])],
        published := publishEvent msgJ.userId msgJ.effTaskId "completed"
          (publishEvent msgJ.userId msgJ.effTaskId "processing" stJ.published) } := by
    obtain ⟨tid, ptid, uid, p, tp, fmt, pik⟩ := msgJ
    simp only [QueueMsg.formatType] at hfJ
    subst hfJ
    rfl
  have keyK : process_task now ptMs wid genKey msgK
      (.ok (parse_failure_result err raw pt pn "kvp")) stK =
      { tasks := update_task_status now stK.tasks msgK.taskId "failed"
          (some ("worker-" ++ wid)) (some "KeyError: kvp_output"),
        pages := update_task_page_status now
          (update_task_page_status now stK.pages msgK.effTaskId msgK.pageNumber
            "kvp" "processing" (some wid) none none none)
          msgK.effTaskId msgK.pageNumber "kvp" "failed" (some wid)
          none none (some "KeyError: kvp_output"),
        uploads := stK.uploads,
        published := publishEvent msgK.userId msgK.taskId "failed"
          (publishEvent msgK.userId msgK.effTaskId "processing" stK.published) } := by
    obtain ⟨tid, ptid, uid, p, tp, fmt, pik⟩ := msgK
    simp only [QueueMsg.formatType] at hfK
    subst hfK
    rfl
  have keyA : process_task now ptMs wid genKey msgA
      (.ok (parse_failure_result err raw pt pn "anon")) stA =
      { tasks := update_task_status now stA.tasks msgA.taskId "failed"
          (some ("worker-" ++ wid)) (some "KeyError: anon_json"),
        pages := update_task_page_status now
          (update_task_page_status now stA.pages msgA.effTaskId msgA.pageNumber
            "anon" "processing" (some wid) none none none)
          msgA.effTaskId msgA.pageNumber "anon" "failed" (some wid)
          none none (some "KeyError: anon_json"),
        uploads := stA.uploads,
        published := publishEvent msgA.userId msgA.taskId "failed"
          (publishEvent msgA.userId msgA.effTaskId "processing" stA.published) } := by
    obtain ⟨tid, ptid, uid, p, tp, fmt, pik⟩ := msgA
    simp only [QueueMsg.formatType] at hfA
    subst hfA
    rfl
  refine ⟨⟨?_, ?_⟩, ⟨?_, ?_, ?_⟩, ⟨?_, ?_⟩⟩
  · rw [keyJ]
    simp only [update_task_page_status]
    rw [alookup_aupdate_eq, alookup_aupdate_eq, hrJ]
    rfl
  · rw [keyJ]
  · rw [keyK]
    simp only [update_task_page_status]
    rw [alookup_aupdate_eq, alookup_aupdate_eq, hrK]
    rfl
  · rw [keyK]
    simp only [update_task_page_status]
    rw [alookup_aupdate_eq, alookup_aupdate_eq, hrK]
    rfl
  · rw [keyK]
  · rw [keyA]
    simp only [update_task_page_status]
    rw [alookup_aupdate_eq, alookup_aupdate_eq, hrA]
    rfl
  · rw [keyA]

def c3JsonMsg : QueueMsg :=
  { taskId := "T", pageNumber := 1, formatType := "json", userId := "U" }

def c3JsonState : WorkerState :=
  { tasks := [("T", { status := "processing" })],
    pages := [(("T", 1, "json"), { status := "pending" })] }

def c3AnonMsg : QueueMsg :=
  { taskId := "T", pageNumber := 1, formatType := "anon", userId := "U" }

def c3AnonState : WorkerState :=
  { tasks := [("T", { status := "processing" })],
    pages := [(("T", 1, "anon"), { status := "pending" })] }

/-- C3 witness: the amended theorem applied at concrete parse-failure runs. -/
theorem c3_soft_failure_witness :
    c3JsonMsg.formatType = "json" ∧ c3Msg.formatType = "kvp" ∧
    c3AnonMsg.formatType = "anon" ∧
    (((alookup (process_task 0 3 "1" (fun f => f) c3JsonMsg
        (.ok (parse_failure_result "invalid json" "garbage" 3 1 "json"))
        c3JsonState).pages ("T", 1, "json")).map (·.status) = some "completed" ∧
     (process_task 0 3 "1" (fun f => f) c3JsonMsg
        (.ok (parse_failure_result "invalid json" "garbage" 3 1 "json"))
        c3JsonState).uploads =
       c3JsonState.uploads ++ [("json", "json", .dict
         [("error", .str "invalid json"), ("raw_output", .str "garbage"),
          ("page_number", .int 1),
          ("message", .str "Model generated output but JSON parsing failed")])]) ∧
    ((alookup (process_task 0 3 "1" (fun f => f) c3Msg
        (.ok (parse_failure_result "invalid json" "garbage" 3 1 "kvp"))
        c3State).pages ("T", 1, "kvp")).map (·.status) = some "failed" ∧
     (alookup (process_task 0 3 "1" (fun f => f) c3Msg
        (.ok (parse_failure_result "invalid json" "garbage" 3 1 "kvp"))
        c3State).pages ("T", 1, "kvp")).map (·.errorMessage) =
       some (some "KeyError: kvp_output") ∧
     (process_task 0 3 "1" (fun f => f) c3Msg
        (.ok (parse_failure_result "invalid json" "garbage" 3 1 "kvp"))
        c3State).uploads = c3State.uploads) ∧
    ((alookup (process_task 0 3 "1" (fun f => f) c3AnonMsg
        (.ok (parse_failure_result "invalid json" "garbage" 3 1 "anon"))
        c3AnonState).pages ("T", 1, "anon")).map (·.status) = some "failed" ∧
     (process_task 0 3 "1" (fun f => f) c3AnonMsg
        (.ok (parse_failure_result "invalid json" "garbage" 3 1 "anon"))
        c3AnonState).uploads = c3AnonState.uploads)) :=
  ⟨rfl, rfl, rfl,
    c3_soft_failure_json_only 0 3 "1" (fun f => f) c3JsonMsg c3Msg c3AnonMsg
      "invalid json" "garbage" 3 1 c3JsonState c3State c3AnonState
      { status := "pending" } { status := "pending" } { status := "pending" }
      rfl rfl rfl (by rfl) (by rfl) (by rfl)⟩

/-! ## Claim C4 -/

/-- **C4.** Derived-txt invariant: completing an html unit whose processor
result carries `text_output` insert-or-upserts a `(task, page, "txt")` PageUnit
row in `completed` status referencing the txt side-artifact key; the html unit
row itself ends `completed`; a conflict with an existing txt row updates it in
place (the ledger grows only when no txt row existed); and P4 — every completed
html unit has a completed txt unit for the same (task, page) — is preserved by
every worker step and every run. -/
theorem c4_derived_txt_upsert_and_p4 (now ptMs : Nat) (wid : String)
    (genKey : String → String) (msg : QueueMsg) (htmlOut txtOut lang : String)
    (dims : PyVal) (ptI rpn : Int) (st : WorkerState) (r : PageUnitRow)
    (hf : msg.formatType = "html")
    (hr : alookup st.pages (msg.effTaskId, msg.pageNumber, "html") = some r) :
    (∃ r', alookup (process_task now ptMs wid genKey msg
          (Except.ok (html_page_result htmlOut txtOut lang dims ptI rpn)) st).pages
        (msg.effTaskId, msg.pageNumber, "txt") = some r' ∧
      r'.status = "completed" ∧ r'.resultKey = some (genKey "txt")) ∧
    (∃ r', alookup (process_task now ptMs wid genKey msg
          (Except.ok (html_page_result htmlOut txtOut lang dims ptI rpn)) st).pages
        (msg.effTaskId, msg.pageNumber, "html") = some r' ∧
      r'.status = "completed") ∧
    ((process_task now ptMs wid genKey msg
          (Except.ok (html_page_result htmlOut txtOut lang dims ptI rpn)) st).pages.length =
      if (alookup st.pages (msg.effTaskId, msg.pageNumber, "txt")).isSome
      then st.pages.length else st.pages.length + 1) ∧
    (∀ (msg' : QueueMsg) (pr' : Except String PyVal) (st' : WorkerState),
      msg'.formatType ≠ "txt" →
      (∀ d, pr' = Except.ok d → msg'.formatType = "html" → d.hasKey "text_output" = true) →
      P4Inv st'.pages → P4Inv (process_task now ptMs wid genKey msg' pr' st').pages) ∧
    (∀ (msgs : List (QueueMsg × Except String PyVal)) (stI : WorkerState),
      (∀ m ∈ msgs, m.1.formatType ≠ "txt" ∧
        (∀ d, m.2 = Except.ok d → m.1.formatType = "html" → d.hasKey "text_output" = true)) →
      P4Inv stI.pages → P4Inv (process_all now ptMs wid genKey msgs stI).pages) := by
  have heq := process_task_html_ok_eq now ptMs wid genKey msg htmlOut txtOut lang dims ptI rpn st hf
  have hne : ((msg.effTaskId, msg.pageNumber, "txt") : UnitKey) ≠
      (msg.effTaskId, msg.pageNumber, "html") := by simp
  refine ⟨?_, ?_, ?_, ?_, ?_⟩
  · rw [heq]
    simp only [complete_state]
    rw [hf]
    rw [utps_lookup_ne _ _ _ _ _ _ _ _ _ _ _ hne]
    simp only [derivedTxtPages]
    obtain ⟨r', h1, h2, h3, _, _, _⟩ := insert_derived_lookup_self now
      (procPages now wid msg st.pages) msg.effTaskId msg.pageNumber msg.totalPages
      "txt" "completed" (some wid) (some (genKey "txt")) (some 0) none
    exact ⟨r', h1, h2, h3⟩
  · rw [heq]
    simp only [complete_state]
    rw [hf]
    have hpp : (alookup (procPages now wid msg st.pages)
        (msg.effTaskId, msg.pageNumber, "html")).isSome := by
      simp only [procPages]
      rw [hf, utps_lookup_isSome_eq, hr]
      rfl
    obtain ⟨r0, hr0⟩ := Option.isSome_iff_exists.mp hpp
    have hmid : alookup (derivedTxtPages now wid genKey msg (procPages now wid msg st.pages))
        (msg.effTaskId, msg.pageNumber, "html") = some r0 := by
      simp only [derivedTxtPages]
      rw [insert_derived_lookup_ne _ _ _ _ _ _ _ _ _ _ _ _ (Ne.symm hne)]
      exact hr0
    exact utps_status_self now _ msg.effTaskId msg.pageNumber "html" "completed"
      (some wid) (some (genKey "html")) (some ptMs) none r0 hmid
  · rw [heq]
    simp only [complete_state]
    rw [utps_length]
    simp only [derivedTxtPages]
    rw [insert_derived_length]
    have h1 : alookup (procPages now wid msg st.pages)
        (msg.effTaskId, msg.pageNumber, "txt") =
        alookup st.pages (msg.effTaskId, msg.pageNumber, "txt") := by
      simp only [procPages]
      rw [hf]
      exact utps_lookup_ne _ _ _ _ _ _ _ _ _ _ _ hne
    have h2 : (procPages now wid msg st.pages).length = st.pages.length := by
      simp only [procPages]
      exact utps_length _ _ _ _ _ _ _ _ _ _
    rw [h1, h2]
  · intro msg' pr' st' h1 h2 h3
    exact p4_preserved_step now ptMs wid genKey msg' pr' st' h1 h2 h3
  · intro msgs stI h1 h2
    exact p4_preserved_all now ptMs wid genKey msgs stI h1 h2

def c4Gen : String → String := fun f => "res/" ++ f

def c4Msg : QueueMsg :=
  QueueMsg.mk "t1" none "u1" 1 1 "html" "img"

def c4Row : PageUnitRow :=
  { status := "pending" }

def c4St : WorkerState :=
  { tasks := [("t1", { status := "processing" })],
    pages := [(("t1", 1, "html"), c4Row)] }

theorem c4_derived_txt_witness :
    c4Msg.formatType = "html" ∧
    alookup c4St.pages (c4Msg.effTaskId, c4Msg.pageNumber, "html") = some c4Row ∧
    ((∃ r', alookup (process_task 0 1 "w" c4Gen c4Msg
          (Except.ok (html_page_result "h" "x" "en" .null 2 1)) c4St).pages
        (c4Msg.effTaskId, c4Msg.pageNumber, "txt") = some r' ∧
      r'.status = "completed" ∧ r'.resultKey = some (c4Gen "txt")) ∧
    (∃ r', alookup (process_task 0 1 "w" c4Gen c4Msg
          (Except.ok (html_page_result "h" "x" "en" .null 2 1)) c4St).pages
        (c4Msg.effTaskId, c4Msg.pageNumber, "html") = some r' ∧
      r'.status = "completed") ∧
    ((process_task 0 1 "w" c4Gen c4Msg
          (Except.ok (html_page_result "h" "x" "en" .null 2 1)) c4St).pages.length =
      if (alookup c4St.pages (c4Msg.effTaskId, c4Msg.pageNumber, "txt")).isSome
      then c4St.pages.length else c4St.pages.length + 1) ∧
    (∀ (msg' : QueueMsg) (pr' : Except String PyVal) (st' : WorkerState),
      msg'.formatType ≠ "txt" →
      (∀ d, pr' = Except.ok d → msg'.formatType = "html" → d.hasKey "text_output" = true) →
      P4Inv st'.pages → P4Inv (process_task 0 1 "w" c4Gen msg' pr' st').pages) ∧
    (∀ (msgs : List (QueueMsg × Except String PyVal)) (stI : WorkerState),
      (∀ m ∈ msgs, m.1.formatType ≠ "txt" ∧
        (∀ d, m.2 = Except.ok d → m.1.formatType = "html" → d.hasKey "text_output" = true)) →
      P4Inv stI.pages → P4Inv (process_all 0 1 "w" c4Gen msgs stI).pages)) :=
  ⟨rfl, rfl, c4_derived_txt_upsert_and_p4 0 1 "w" c4Gen c4Msg "h" "x" "en" .null 2 1
    c4St c4Row rfl rfl⟩

/-! ## Claim C5 -/

/-- **C5.** Primary-key priority. The worker updates the task's primary result
key exactly when the completed unit's result has format `html` or `kvp`
(`_update_page_result`); the html-priority invariant P5 — whenever a task has a
completed html unit, its row's primary key names an uploaded html artifact —
is preserved by every worker step and every run; and the `else kvp` clause of
P5 is vacuous in this code, because no kvp unit ever reaches `completed` (the
completion update for kvp raises `TypeError`, see claim C2), which the
`NKvpInv` preservation conjuncts express. -/
theorem c5_primary_key_priority (now ptMs : Nat) (wid : String)
    (genKey : String → String) (msg : QueueMsg) (pr : Except String PyVal)
    (st : WorkerState)
    (hwf : ∀ d, pr = Except.ok d → msg.formatType = "html" →
      d.hasKey "text_output" = true)
    (hwf2 : ∀ d, pr = Except.ok d →
      PyVal.optStr (d.get "format_type") = some msg.formatType) :
    (∀ (tasks : List (String × TaskRow)) (t k : String),
      (∀ fmtR, fmtR = some "html" ∨ fmtR = some "kvp" →
        update_page_result tasks t k fmtR = update_task_result_key tasks t k) ∧
      (∀ fmtR, fmtR ≠ some "html" → fmtR ≠ some "kvp" →
        update_page_result tasks t k fmtR = tasks) ∧
      (∀ row, alookup tasks t = some row →
        alookup (update_task_result_key tasks t k) t =
          some { row with s3ResultKey := some k })) ∧
    (P5Inv st → P5Inv (process_task now ptMs wid genKey msg pr st)) ∧
    (NKvpInv st.pages → NKvpInv (process_task now ptMs wid genKey msg pr st).pages) ∧
    (∀ (msgs : List (QueueMsg × Except String PyVal)) (stI : WorkerState),
      (∀ m ∈ msgs,
        (∀ d, m.2 = Except.ok d → m.1.formatType = "html" →
          d.hasKey "text_output" = true) ∧
        (∀ d, m.2 = Except.ok d →
          PyVal.optStr (d.get "format_type") = some m.1.formatType)) →
      (P5Inv stI → P5Inv (process_all now ptMs wid genKey msgs stI)) ∧
      (NKvpInv stI.pages → NKvpInv (process_all now ptMs wid genKey msgs stI).pages)) := by
  refine ⟨?_, ?_, ?_, ?_⟩
  · intro tasks t k
    exact ⟨fun fmtR h => upr_updates tasks t k fmtR h,
      fun fmtR h1 h2 => upr_skips tasks t k fmtR h1 h2,
      fun row hrow => utrk_lookup_self tasks t k row hrow⟩
  · intro hInv
    exact p5_preserved_step now ptMs wid genKey msg pr st hwf hwf2 hInv
  · intro hInv
    exact nkvp_preserved_step now ptMs wid genKey msg pr st hwf hInv
  · intro msgs stI hmsgs
    exact ⟨fun hInv => p5_preserved_all now ptMs wid genKey msgs stI hmsgs hInv,
      fun hInv => nkvp_preserved_all now ptMs wid genKey msgs stI
        (fun m hm => (hmsgs m hm).1) hInv⟩

def c5Gen : String → String := fun f => "k5/" ++ f

def c5Msg : QueueMsg :=
  QueueMsg.mk "t5" none "u5" 1 1 "json" "img5"

def c5Result : PyVal :=
  .dict [("page_number", .int 1), ("format_type", .str "json"),
         ("json_output", .str "o")]

theorem c5_primary_key_witness :
    (∀ d, (Except.ok c5Result : Except String PyVal) = Except.ok d →
      c5Msg.formatType = "html" → d.hasKey "text_output" = true) ∧
    (∀ d, (Except.ok c5Result : Except String PyVal) = Except.ok d →
      PyVal.optStr (d.get "format_type") = some c5Msg.formatType) ∧
    ((∀ (tasks : List (String × TaskRow)) (t k : String),
      (∀ fmtR, fmtR = some "html" ∨ fmtR = some "kvp" →
        update_page_result tasks t k fmtR = update_task_result_key tasks t k) ∧
      (∀ fmtR, fmtR ≠ some "html" → fmtR ≠ some "kvp" →
        update_page_result tasks t k fmtR = tasks) ∧
      (∀ row, alookup tasks t = some row →
        alookup (update_task_result_key tasks t k) t =
          some { row with s3ResultKey := some k })) ∧
    (P5Inv { tasks := [], pages := [] } →
      P5Inv (process_task 0 1 "w5" c5Gen c5Msg (Except.ok c5Result)
        { tasks := [], pages := [] })) ∧
    (NKvpInv ({ tasks := [], pages := [] } : WorkerState).pages →
      NKvpInv (process_task 0 1 "w5" c5Gen c5Msg (Except.ok c5Result)
        { tasks := [], pages := [] }).pages) ∧
    (∀ (msgs : List (QueueMsg × Except String PyVal)) (stI : WorkerState),
      (∀ m ∈ msgs,
        (∀ d, m.2 = Except.ok d → m.1.formatType = "html" →
          d.hasKey "text_output" = true) ∧
        (∀ d, m.2 = Except.ok d →
          PyVal.optStr (d.get "format_type") = some m.1.formatType)) →
      (P5Inv stI → P5Inv (process_all 0 1 "w5" c5Gen msgs stI)) ∧
      (NKvpInv stI.pages → NKvpInv (process_all 0 1 "w5" c5Gen msgs stI).pages))) :=
  ⟨fun d hd hcontra => absurd hcontra (by decide),
   fun d hd => by injection hd with h; rw [← h]; rfl,
   c5_primary_key_priority 0 1 "w5" c5Gen c5Msg (Except.ok c5Result)
     { tasks := [], pages := [] }
     (fun d hd hcontra => absurd hcontra (by decide))
     (fun d hd => by injection hd with h; rw [← h]; rfl)⟩

/-! ## Claim C6 -/

theorem base_ge (cw : ℚ) : 8 ≤ max 8 (min (pyTrunc (cw * (19 / 10))) 200) :=
  le_max_left _ _

theorem base_le (cw : ℚ) : max 8 (min (pyTrunc (cw * (19 / 10))) 200) ≤ 200 :=
  max_le (by norm_num) (min_le_right _ _)

theorem base_mono {cw cw' : ℚ} (h0 : 0 ≤ cw) (hle : cw ≤ cw') :
    max 8 (min (pyTrunc (cw * (19 / 10))) 200) ≤
      max 8 (min (pyTrunc (cw' * (19 / 10))) 200) := by
  have h1 : (0 : ℚ) ≤ cw * (19 / 10) := by positivity
  have h2 : cw * (19 / 10) ≤ cw' * (19 / 10) := by
    apply mul_le_mul_of_nonneg_right hle
    norm_num
  exact max_le_max le_rfl (min_le_min (pyTrunc_mono h1 h2) le_rfl)

/-- **C6 counterexample.** The code truncates with `int()` where the claim says
`round`: at `cw = 5.2` the code emits 9 while the claimed formula gives 10; and
for `data-font="hand"` the 0.7 multiplier is applied after the clamp, so at
`cw = 1` the code emits 5 — outside the claimed range `[8, 200]`. -/
theorem c6_font_sizing_counterexample :
    font_size_px (26 / 5) "sans" = 9 ∧
    spec_font_size_px (26 / 5) "sans" = 10 ∧
    font_size_px 1 "hand" = 5 ∧
    ¬(8 ≤ font_size_px 1 "hand") := by
  refine ⟨?_, ?_, ?_, ?_⟩
  · have h : ("sans" : String) ≠ "hand" := by decide
    simp only [font_size_px, if_neg h]
    have : pyTrunc ((26 / 5 : ℚ) * (19 / 10)) = 9 := by
      rw [pyTrunc_eq_floor (by norm_num)]
      rw [Int.floor_eq_iff]
      norm_num
    rw [this]
    decide
  · have h : ("sans" : String) ≠ "hand" := by decide
    simp only [spec_font_size_px, if_neg h]
    have : round ((26 / 5 : ℚ) * (19 / 10)) = 10 := by
      rw [round_eq]
      rw [Int.floor_eq_iff]
      norm_num
    rw [this]
    decide
  · simp only [font_size_px, if_pos rfl]
    have h1 : pyTrunc ((1 : ℚ) * (19 / 10)) = 1 := by
      rw [pyTrunc_eq_floor (by norm_num)]
      rw [Int.floor_eq_iff]
      norm_num
    rw [h1]
    norm_num
    rw [pyTrunc_eq_floor (by norm_num)]
    rw [Int.floor_eq_iff]
    norm_num
  · intro hcon
    have h1 : pyTrunc ((1 : ℚ) * (19 / 10)) = 1 := by
      rw [pyTrunc_eq_floor (by norm_num)]
      rw [Int.floor_eq_iff]
      norm_num
    simp only [font_size_px, if_pos rfl, h1] at hcon
    norm_num [pyTrunc] at hcon

/-- **C6 (amended).** The code computes `max(8, min(int(cw * 1.9), 200))` —
truncation, not rounding — and applies the `hand` 0.7 multiplier *after* the
clamp. Hence for non-`hand` fonts the emitted size lies in `[8, 200]`, for
`hand` it lies in `[5, 140]`, and for a fixed `data-font` the size is monotonic
in the character width. -/
theorem c6_font_sizing_amended (cw cw' : ℚ) (fmt : String)
    (h0 : 0 ≤ cw) (hle : cw ≤ cw') :
    (fmt ≠ "hand" → 8 ≤ font_size_px cw fmt ∧ font_size_px cw fmt ≤ 200) ∧
    (5 ≤ font_size_px cw "hand" ∧ font_size_px cw "hand" ≤ 140) ∧
    font_size_px cw fmt ≤ font_size_px cw' fmt := by
  refine ⟨?_, ?_, ?_⟩
  · intro hfmt
    simp only [font_size_px, if_neg hfmt]
    exact ⟨base_ge cw, base_le cw⟩
  · simp only [font_size_px, if_pos rfl, if_true]
    have hb8 : (8 : Int) ≤ max 8 (min (pyTrunc (cw * (19 / 10))) 200) := base_ge cw
    have hb200 : max 8 (min (pyTrunc (cw * (19 / 10))) 200) ≤ 200 := base_le cw
    have hq8 : (8 : ℚ) ≤ ((max 8 (min (pyTrunc (cw * (19 / 10))) 200) : Int) : ℚ) := by
      exact_mod_cast hb8
    have hq200 : ((max 8 (min (pyTrunc (cw * (19 / 10))) 200) : Int) : ℚ) ≤ 200 := by
      exact_mod_cast hb200
    have h07 : (0 : ℚ) ≤
        ((max 8 (min (pyTrunc (cw * (19 / 10))) 200) : Int) : ℚ) * (7 / 10) := by
      nlinarith
    rw [pyTrunc_eq_floor h07]
    constructor
    · rw [Int.le_floor]
      have h5 : ((5 : Int) : ℚ) = 5 := by norm_num
      rw [h5]
      nlinarith [hq8]
    · have hle140 : ((max 8 (min (pyTrunc (cw * (19 / 10))) 200) : Int) : ℚ) * (7 / 10)
          ≤ 140 := by nlinarith
      have := Int.floor_le_floor hle140
      simpa using this
  · by_cases hh : fmt = "hand"
    · subst hh
      simp only [font_size_px, if_pos rfl, if_true]
      have hbb : max 8 (min (pyTrunc (cw * (19 / 10))) 200) ≤
          max 8 (min (pyTrunc (cw' * (19 / 10))) 200) := base_mono h0 hle
      have hb8 : (8 : Int) ≤ max 8 (min (pyTrunc (cw * (19 / 10))) 200) := base_ge cw
      have h07 : (0 : ℚ) ≤
          ((max 8 (min (pyTrunc (cw * (19 / 10))) 200) : Int) : ℚ) * (7 / 10) := by
        have : (8 : ℚ) ≤ ((max 8 (min (pyTrunc (cw * (19 / 10))) 200) : Int) : ℚ) := by
          exact_mod_cast hb8
        nlinarith
      apply pyTrunc_mono h07
      have : ((max 8 (min (pyTrunc (cw * (19 / 10))) 200) : Int) : ℚ) ≤
          ((max 8 (min (pyTrunc (cw' * (19 / 10))) 200) : Int) : ℚ) := by
        exact_mod_cast hbb
      nlinarith
    · simp only [font_size_px, if_neg hh]
      exact base_mono h0 hle

theorem c6_font_sizing_witness :
    (0 : ℚ) ≤ 1 ∧ (1 : ℚ) ≤ 2 ∧
    ((("sans" : String) ≠ "hand" →
        8 ≤ font_size_px 1 "sans" ∧ font_size_px 1 "sans" ≤ 200) ∧
     (5 ≤ font_size_px 1 "hand" ∧ font_size_px 1 "hand" ≤ 140) ∧
     font_size_px 1 "sans" ≤ font_size_px 2 "sans") :=
  ⟨by norm_num, by norm_num,
    c6_font_sizing_amended 1 2 "sans" (by norm_num) (by norm_num)⟩

/-! ## Claim C7 -/

def c7Sha : String → String := fun _ => "aabbccddeeff00112233"

def c7Gen : String → String → String := fun v _ => v

/-- **C7 counterexample.** The audit record stores the field name verbatim
(`audit_info['key'] = key`, anon_processor.py line 129). When the original
value coincides with its field name — value `"Name"` under key `"Name"` — the
record contains the original value itself, contradicting "never contains the
original value". -/
theorem c7_audit_counterexample :
    (anonymize_value c7Sha "2026-01-01T00:00:00" c7Gen c7Gen c7Gen
        "Name" "Name" "redact").2 =
      some { key := "Name", originalHash := "aabbccddeeff0011",
             originalLength := 4, strategyApplied := "redact",
             timestamp := "2026-01-01T00:00:00", anonymizedLength := 17 } ∧
    ∀ a, (anonymize_value c7Sha "2026-01-01T00:00:00" c7Gen c7Gen c7Gen
        "Name" "Name" "redact").2 = some a → "Name" ∈ a.stringFields := by
  constructor
  · rfl
  · intro a ha
    have : a = { key := "Name", originalHash := "aabbccddeeff0011",
                 originalLength := 4, strategyApplied := "redact",
                 timestamp := "2026-01-01T00:00:00", anonymizedLength := 17 } := by
      have h2 := ha.symm.trans (rfl :
        (anonymize_value c7Sha "2026-01-01T00:00:00" c7Gen c7Gen c7Gen
          "Name" "Name" "redact").2 =
        some { key := "Name", originalHash := "aabbccddeeff0011",
               originalLength := 4, strategyApplied := "redact",
               timestamp := "2026-01-01T00:00:00", anonymizedLength := 17 })
      exact (Option.some.injEq _ _ ▸ h2 :)
    rw [this]
    decide

/-- **C7 (amended).** For every non-empty value, `anonymize_value` emits an
audit record carrying the 16-hex-prefix of the SHA-256 of the original, the
original and anonymized lengths, the strategy and the timestamp — plus the
field name `key` verbatim. The original value is absent from the record's
string fields only under the side conditions that it differs from the field
name, its own hash prefix, the strategy name and the timestamp; the field-name
condition is not guaranteed by the code (see the counterexample). -/
theorem c7_audit_record_amended (sha : String → String) (now : String)
    (sGen gGen mGen : String → String → String) (value key strategy : String)
    (hv : value ≠ "") (hk : value ≠ key) (hh : value ≠ (sha value).take 16)
    (hs : value ≠ strategy) (hn : value ≠ now) :
    (anonymize_value sha now sGen gGen mGen value key strategy).2 = some
      { key := key, originalHash := (sha value).take 16,
        originalLength := value.length, strategyApplied := strategy,
        timestamp := now,
        anonymizedLength :=
          (anonymize_value sha now sGen gGen mGen value key strategy).1.length } ∧
    ∀ a, (anonymize_value sha now sGen gGen mGen value key strategy).2 = some a →
      value ∉ a.stringFields := by
  constructor
  · simp only [anonymize_value, if_neg hv]
  · intro a ha
    simp only [anonymize_value, if_neg hv] at ha
    injection ha with ha
    rw [← ha]
    simp only [AuditInfo.stringFields, List.mem_cons, List.not_mem_nil, or_false]
    push_neg
    exact ⟨hk, hh, hs, hn⟩

theorem c7_audit_record_witness :
    ("John" : String) ≠ "" ∧ ("John" : String) ≠ "Name" ∧
    ("John" : String) ≠ (c7Sha "John").take 16 ∧
    ("John" : String) ≠ "redact" ∧ ("John" : String) ≠ "2026-01-01T00:00:00" ∧
    ((anonymize_value c7Sha "2026-01-01T00:00:00" c7Gen c7Gen c7Gen
        "John" "Name" "redact").2 = some
      { key := "Name", originalHash := (c7Sha "John").take 16,
        originalLength := ("John" : String).length, strategyApplied := "redact",
        timestamp := "2026-01-01T00:00:00",
        anonymizedLength :=
          (anonymize_value c7Sha "2026-01-01T00:00:00" c7Gen c7Gen c7Gen
            "John" "Name" "redact").1.length } ∧
    ∀ a, (anonymize_value c7Sha "2026-01-01T00:00:00" c7Gen c7Gen c7Gen
        "John" "Name" "redact").2 = some a → ("John" : String) ∉ a.stringFields) :=
  ⟨by decide, by decide, by decide, by decide, by decide,
    c7_audit_record_amended c7Sha "2026-01-01T00:00:00" c7Gen c7Gen c7Gen
      "John" "Name" "redact" (by decide) (by decide) (by decide) (by decide) (by decide)⟩

/-! ## Claim C8 -/

/-- **C8.** Tokenization round-trip: `generate_tokenized_output` emits one
`key: [KIND_NNN]` line per mapping entry (the lines are exactly the token-map
entries rendered in order), the token map sends each token to its entry's key
and original in order, every token is `mkToken` of the key's classified kind
with some counter value, the tokens are pairwise distinct, and — provided no
key or original contains `'['` — substituting every token by its mapped
original turns the tokenized lines into exactly the `key: original` lines in
order. -/
theorem c8_tokenization_roundtrip (m : List MapEntry)
    (hm : ∀ e ∈ m, '[' ∉ e.key ∧ '[' ∉ e.original) :
    (generate_tokenized_output m).1 =
      (generate_tokenized_output m).2.map
        (fun p => p.2.key ++ (": ").data ++ p.1) ∧
    (generate_tokenized_output m).2.map (fun p => (p.2.key, p.2.original)) =
      m.map (fun e => (e.key, e.original)) ∧
    (∀ p ∈ (generate_tokenized_output m).2,
      p.2.tokType = classify_token_type p.2.key ∧
      ∃ c, p.1 = mkToken p.2.tokType c) ∧
    ((generate_tokenized_output m).2.map Prod.fst).Nodup ∧
    detokenize (generate_tokenized_output m).1 (generate_tokenized_output m).2 =
      m.map (fun e => e.key ++ (": ").data ++ e.original) := by
  refine ⟨gta_lines m [], gta_entries m [], ?_, gta_nodup m [], gta_detok m [] hm⟩
  intro p hp
  obtain ⟨h1, _, c, _, hp'⟩ := gta_tokens m [] p hp
  exact ⟨h1, c, hp'⟩

def c8M : List MapEntry :=
  [⟨"Name".data, "John Q".data, "XXX".data⟩,
   ⟨"Name2".data, "Jane".data, "YYY".data⟩]

theorem c8_tokenization_witness :
    (∀ e ∈ c8M, '[' ∉ e.key ∧ '[' ∉ e.original) ∧
    ((generate_tokenized_output c8M).1 =
      (generate_tokenized_output c8M).2.map
        (fun p => p.2.key ++ (": ").data ++ p.1) ∧
    (generate_tokenized_output c8M).2.map (fun p => (p.2.key, p.2.original)) =
      c8M.map (fun e => (e.key, e.original)) ∧
    (∀ p ∈ (generate_tokenized_output c8M).2,
      p.2.tokType = classify_token_type p.2.key ∧
      ∃ c, p.1 = mkToken p.2.tokType c) ∧
    ((generate_tokenized_output c8M).2.map Prod.fst).Nodup ∧
    detokenize (generate_tokenized_output c8M).1 (generate_tokenized_output c8M).2 =
      c8M.map (fun e => e.key ++ (": ").data ++ e.original)) :=
  ⟨by decide, c8_tokenization_roundtrip c8M (by decide)⟩

/-! ## Claim C9 -/

/-- **C9.** KVP alias resolution: if alias `a` belongs to master key def `d`
and (after lower-case/strip normalization) no other key def claims it, then
normalizing an item whose key normalizes like `a` assigns
`standardized_key = d.key`; an item whose key matches no alias of any def gets
a null standardized key and category `"other"`. -/
theorem c9_alias_resolution (keys : List KvpKeyDef) (d : KvpKeyDef) (a : String)
    (stdInfo : List (String × KeyInfo)) (requiredKeys : List String)
    (item1 item2 : ExtractedItem)
    (hd : d ∈ keys) (ha : a ∈ d.key :: d.aliases)
    (huniq : ∀ d' ∈ keys, pyLowerStrip a ∈ (d'.key :: d'.aliases).map pyLowerStrip →
      d'.key = d.key)
    (hk1 : pyLowerStrip item1.key = pyLowerStrip a)
    (hnom : ∀ d' ∈ keys,
      pyLowerStrip item2.key ∉ (d'.key :: d'.aliases).map pyLowerStrip) :
    (normalize_item (build_alias_map keys).1 stdInfo requiredKeys
        item1).standardizedKey = some d.key ∧
    (normalize_item (build_alias_map keys).1 stdInfo requiredKeys
        item2).standardizedKey = none ∧
    (normalize_item (build_alias_map keys).1 stdInfo requiredKeys
        item2).category = "other" := by
  have h1 : alookup (build_alias_map keys).1 (pyLowerStrip item1.key) =
      some d.key := by
    rw [hk1, build_alias_lookup]
    exact lookup_alias_spec_hit keys d (pyLowerStrip a) hd
      (List.mem_map_of_mem pyLowerStrip ha) huniq
  have h2 : alookup (build_alias_map keys).1 (pyLowerStrip item2.key) = none := by
    rw [build_alias_lookup]
    exact lookup_alias_spec_miss keys _ hnom
  refine ⟨?_, ?_, ?_⟩
  · simp [normalize_item, h1]
  · simp [normalize_item, h2]
  · simp [normalize_item, h2]

def c9D1 : KvpKeyDef :=
  { key := "invoice_number", aliases := ["inv no", "invoice #"],
    category := "billing", sector := some "finance",
    sectorName := some "Finance" }

def c9D2 : KvpKeyDef :=
  { key := "total_amount", aliases := ["total"], category := "billing" }

def c9Keys : List KvpKeyDef := [c9D1, c9D2]

def c9Item1 : ExtractedItem := { key := " INV NO ", value := "A-17" }

def c9Item2 : ExtractedItem := { key := "zzz", value := "q" }

theorem c9_alias_resolution_witness :
    c9D1 ∈ c9Keys ∧ "inv no" ∈ c9D1.key :: c9D1.aliases ∧
    (∀ d' ∈ c9Keys,
      pyLowerStrip "inv no" ∈ (d'.key :: d'.aliases).map pyLowerStrip →
        d'.key = c9D1.key) ∧
    pyLowerStrip c9Item1.key = pyLowerStrip "inv no" ∧
    (∀ d' ∈ c9Keys,
      pyLowerStrip c9Item2.key ∉ (d'.key :: d'.aliases).map pyLowerStrip) ∧
    ((normalize_item (build_alias_map c9Keys).1 (build_alias_map c9Keys).2
        ["invoice_number"] c9Item1).standardizedKey = some c9D1.key ∧
     (normalize_item (build_alias_map c9Keys).1 (build_alias_map c9Keys).2
        ["invoice_number"] c9Item2).standardizedKey = none ∧
     (normalize_item (build_alias_map c9Keys).1 (build_alias_map c9Keys).2
        ["invoice_number"] c9Item2).category = "other") :=
  ⟨by decide, by decide, by decide, by decide, by decide,
   c9_alias_resolution c9Keys c9D1 "inv no" (build_alias_map c9Keys).2
     ["invoice_number"] c9Item1 c9Item2 (by decide) (by decide) (by decide)
     (by decide) (by decide)⟩

/-! ## Claim C10 -/

/-- C10: a queue-pop error and a timeout both make `get_task_from_queue`
return `None`; a popped payload whose JSON parse fails also yields `None`, and
the worker loop then simply continues: the message is consumed (the queue
shrinks by one) while the worker state — ledger, uploads, publications — is
untouched, so no ledger write, status update or notification ever corresponds
to the dropped message. -/
theorem c10_invalid_payload_dropped
    (parseJson : String → Option PyVal) (now ptMs : Nat) (wid : String)
    (genKey : String → String) (procOf : PyVal → Except String PyVal)
    (q : List String) (ws : WorkerState) (payload e : String)
    (hbad : parseJson payload = none) :
    get_task_from_queue parseJson (.error e) = none ∧
    get_task_from_queue parseJson (.ok none) = none ∧
    run_iteration parseJson now ptMs wid genKey procOf ⟨q ++ [payload], ws⟩ =
      ⟨q, ws⟩ := by
  refine ⟨rfl, rfl, ?_⟩
  unfold run_iteration
  have hpop : brpop (q ++ [payload]) = (some payload, q) := by
    unfold brpop
    rw [List.getLast?_concat, List.dropLast_concat]
  rw [hpop]
  simp only [get_task_from_queue, hbad]

/-- C10 witness: the theorem applied to a concrete malformed payload. -/
theorem c10_invalid_payload_witness :
    (fun _ : String => (none : Option PyVal)) "not json" = none ∧
    run_iteration (fun _ => none) 0 0 "1" (fun f => f) (fun d => .ok d)
      ⟨["a", "not json"], ⟨[], [], [], []⟩⟩ = ⟨["a"], ⟨[], [], [], []⟩⟩ :=
  ⟨rfl, (c10_invalid_payload_dropped (fun _ => none) 0 0 "1" (fun f => f)
    (fun d => .ok d) ["a"] ⟨[], [], [], []⟩ "not json" "err" rfl).2.2⟩

end Untxt
